import Mathlib

/-!
# cert-manager webhook solver for Alibaba Cloud ESA (`main.go`)

A shallow embedding of the DNS-01 solver.  The Go methods become Lean functions
over an explicit world: every call that leaves the process (the secrets store,
the credential and client constructors of the SDK, the four ESA operations) is a
field of `Env`, is threaded through a state of type `σ`, and is appended to a
log of `Event`s, so that "which calls were issued, with which arguments and
which answers" is a value theorems can talk about.

Conventions
* Go `int32` / `int64` values are `Int`; 32-bit arithmetic is wrapped by `wrap32`.
* A Go pointer field that the code tests against `nil` is an `Option`.
* A Go `error` result is `Except Err _`; `Err` keeps the wrapping structure of
  the messages built with `fmt.Errorf` / `errors.Wrapf`.
* The two `for { ... }` loops take a fuel argument; running out of fuel is the
  result `none`, and the world (with its log) reached so far is still returned.
* Response bodies are present and slice elements are non-nil, as the SDK
  delivers them; a `nil` slice and an empty slice are both `[]`.
* The Kubernetes client of the solver is the one set up at start-up; only the
  `esaClient` field of the solver is state that the two operations change.
-/

set_option maxRecDepth 8000

namespace EsaWebhook

/-! ## Data model -/

/-- Go `[]byte` (and Go strings obtained from them by `string(b)`). -/
abbrev Bytes := List UInt8

/-- Two's-complement wrap-around of a Go `int32` result. -/
def wrap32 (x : Int) : Int := (x + 2147483648) % 4294967296 - 2147483648

/-- Go `a * b` on `int32`. -/
def mul32 (a b : Int) : Int := wrap32 (a * b)

/-- Go `a + b` on `int32`. -/
def add32 (a b : Int) : Int := wrap32 (a + b)

/-- Go `dnsutil.UnFqdn`: the name without its trailing dot, when it has one. -/
def UnFqdn (name : String) : String :=
  match name.data.getLast? with
  | some c => if c = '.' then String.mk name.data.dropLast else name
  | none => name

/-- Go `cmmetav1.SecretKeySelector`. -/
structure SecretKeySelector where
  Name : String
  Key : String
  deriving DecidableEq, Repr

/-- The provider configuration decoded from the challenge request. -/
structure alicloudESAProviderConfig where
  AccessKeyId : SecretKeySelector
  AccessKeySecret : SecretKeySelector
  RegionId : String
  deriving DecidableEq, Repr

/-- Go `extapi.JSON`. -/
structure JSON where
  Raw : Bytes
  deriving DecidableEq, Repr

/-- The fields of `v1alpha1.ChallengeRequest` the solver reads. -/
structure ChallengeRequest where
  ResolvedFQDN : String
  ResolvedZone : String
  Key : String
  ResourceNamespace : String
  Config : Option JSON
  deriving DecidableEq, Repr

/-- A Kubernetes secret object: its `Data` map. -/
structure Secret where
  Data : List (String × Bytes)
  deriving DecidableEq, Repr

/-- Go `credentials.Config` as filled in by the solver. -/
structure CredentialsConfig where
  Typ : String
  AccessKeyId : Bytes
  AccessKeySecret : Bytes
  deriving DecidableEq, Repr

/-- Go `openapi.Config` as filled in by the solver. -/
structure OpenapiConfig where
  Credential : CredentialsConfig
  RegionId : String
  Endpoint : String
  deriving DecidableEq, Repr

/-- An `*esa.Client`: the handle made by `esa.NewClient` from a configuration. -/
structure Client where
  config : OpenapiConfig
  deriving DecidableEq, Repr

/-- Go `esa.ListSitesRequest`. -/
structure ListSitesRequest where
  PageNumber : Int
  PageSize : Int
  deriving DecidableEq, Repr

/-- One entry of `ListSitesResponseBody.Sites`. -/
structure Site where
  SiteId : Option Int
  SiteName : Option String
  deriving DecidableEq, Repr

/-- Go `esa.ListSitesResponseBody`. -/
structure ListSitesResponseBody where
  Sites : List Site
  PageNumber : Option Int
  PageSize : Option Int
  TotalCount : Option Int
  deriving DecidableEq, Repr

/-- Go `esa.CreateRecordRequestData`. -/
structure CreateRecordRequestData where
  Value : String
  deriving DecidableEq, Repr

/-- Go `esa.CreateRecordRequest`. -/
structure CreateRecordRequest where
  SiteId : Int
  Typ : String
  RecordName : String
  Data : CreateRecordRequestData
  Ttl : Int
  deriving DecidableEq, Repr

/-- Go `esa.ListRecordsRequest`. -/
structure ListRecordsRequest where
  SiteId : Int
  Typ : String
  RecordName : String
  PageNumber : Int
  PageSize : Int
  deriving DecidableEq, Repr

/-- The `Data` of a listed record. -/
structure RecordData where
  Value : Option String
  deriving DecidableEq, Repr

/-- One entry of `ListRecordsResponseBody.Records`. -/
structure Record where
  RecordId : Option Int
  RecordName : Option String
  Data : Option RecordData
  deriving DecidableEq, Repr

/-- Go `esa.ListRecordsResponseBody`. -/
structure ListRecordsResponseBody where
  Records : List Record
  PageNumber : Option Int
  PageSize : Option Int
  TotalCount : Option Int
  deriving DecidableEq, Repr

/-- Go `esa.DeleteRecordRequest`. -/
structure DeleteRecordRequest where
  RecordId : Option Int
  deriving DecidableEq, Repr

/-- Errors returned by the solver. `ext` is an error value handed back by an
external call, `wrap ctx e` is `fmt.Errorf(ctx + ": %v", e)`. -/
inductive Err where
  | ext (msg : String)
  | wrap (ctx : String) (cause : Err)
  | loadSecret (ref : String) (cause : Err)
  | noKey (key : String) (ref : String)
  | siteNotFound (domain : String)
  deriving DecidableEq, Repr

deriving instance DecidableEq for Except

/-- The solver: the `esaClient` field. -/
structure alicloudESAProviderSolver where
  esaClient : Option Client
  deriving DecidableEq, Repr

/-! ## The world outside the process -/

/-- The external collaborators, as functions of a world state of type `σ`. -/
structure Env (σ : Type) where
  /-- Go `json.Unmarshal` on a non-empty input: the filled-in config and the error. -/
  jsonDecode : Bytes → alicloudESAProviderConfig → alicloudESAProviderConfig × Option String
  /-- Go `Secrets(ns).Get(name)`. -/
  secretsGet : σ → String → String → Except String Secret × σ
  /-- The error of `credentials.NewCredential`, if any. -/
  newCredential : CredentialsConfig → Option String
  /-- The error of `esa.NewClient`, if any. -/
  newClient : OpenapiConfig → Option String
  /-- Go `ListSitesWithOptions`. -/
  listSites : σ → Client → ListSitesRequest → Except String ListSitesResponseBody × σ
  /-- Go `CreateRecordWithOptions`: the error, if any. -/
  createRecord : σ → Client → CreateRecordRequest → Option String × σ
  /-- Go `ListRecordsWithOptions`. -/
  listRecords : σ → Client → ListRecordsRequest → Except String ListRecordsResponseBody × σ
  /-- Go `DeleteRecordWithOptions`: the error, if any. -/
  deleteRecord : σ → Client → DeleteRecordRequest → Option String × σ

/-- One external call together with its answer. -/
inductive Event where
  | secretsGet (ns name : String) (res : Except String Secret)
  | newCredential (cfg : CredentialsConfig) (err : Option String)
  | newClient (cfg : OpenapiConfig) (err : Option String)
  | listSites (cl : Client) (req : ListSitesRequest) (res : Except String ListSitesResponseBody)
  | createRecord (cl : Client) (req : CreateRecordRequest) (err : Option String)
  | listRecords (cl : Client) (req : ListRecordsRequest) (res : Except String ListRecordsResponseBody)
  | deleteRecord (cl : Client) (req : DeleteRecordRequest) (err : Option String)

/-- The world: the state of the collaborators and the log of the calls made. -/
structure World (σ : Type) where
  st : σ
  log : List Event

/-- Issue `Secrets(ns).Get(name)`. -/
def callSecretsGet {σ : Type} (env : Env σ) (w : World σ) (ns name : String) :
    Except String Secret × World σ :=
  let r := env.secretsGet w.st ns name
  (r.1, ⟨r.2, w.log ++ [Event.secretsGet ns name r.1]⟩)

/-- Issue `credentials.NewCredential`. -/
def callNewCredential {σ : Type} (env : Env σ) (w : World σ) (cfg : CredentialsConfig) :
    Option String × World σ :=
  (env.newCredential cfg, ⟨w.st, w.log ++ [Event.newCredential cfg (env.newCredential cfg)]⟩)

/-- Issue `esa.NewClient`: the SDK allocates the client, initialises it from the
configuration and returns it together with the initialisation error. -/
def callNewClient {σ : Type} (env : Env σ) (w : World σ) (cfg : OpenapiConfig) :
    (Client × Option String) × World σ :=
  ((⟨cfg⟩, env.newClient cfg), ⟨w.st, w.log ++ [Event.newClient cfg (env.newClient cfg)]⟩)

/-- Issue `ListSitesWithOptions`. -/
def callListSites {σ : Type} (env : Env σ) (w : World σ) (cl : Client) (req : ListSitesRequest) :
    Except String ListSitesResponseBody × World σ :=
  let r := env.listSites w.st cl req
  (r.1, ⟨r.2, w.log ++ [Event.listSites cl req r.1]⟩)

/-- Issue `CreateRecordWithOptions`. -/
def callCreateRecord {σ : Type} (env : Env σ) (w : World σ) (cl : Client)
    (req : CreateRecordRequest) : Option String × World σ :=
  let r := env.createRecord w.st cl req
  (r.1, ⟨r.2, w.log ++ [Event.createRecord cl req r.1]⟩)

/-- Issue `ListRecordsWithOptions`. -/
def callListRecords {σ : Type} (env : Env σ) (w : World σ) (cl : Client)
    (req : ListRecordsRequest) : Except String ListRecordsResponseBody × World σ :=
  let r := env.listRecords w.st cl req
  (r.1, ⟨r.2, w.log ++ [Event.listRecords cl req r.1]⟩)

/-- Issue `DeleteRecordWithOptions`. -/
def callDeleteRecord {σ : Type} (env : Env σ) (w : World σ) (cl : Client)
    (req : DeleteRecordRequest) : Option String × World σ :=
  let r := env.deleteRecord w.st cl req
  (r.1, ⟨r.2, w.log ++ [Event.deleteRecord cl req r.1]⟩)

/-! ## The solver -/

/-- Go `Name`. -/
def Name : String := "alicloud-esa-solver"

/-- Go `json.Unmarshal(raw, &cfg)`: the input is validated first, and an empty
input is the syntax error "unexpected end of JSON input"; any other input is
left to `env.jsonDecode`. -/
def jsonUnmarshal {σ : Type} (env : Env σ) (raw : Bytes) (cfg : alicloudESAProviderConfig) :
    alicloudESAProviderConfig × Option String :=
  if raw = [] then (cfg, some "unexpected end of JSON input") else env.jsonDecode raw cfg

/-- The zero value of the provider configuration. -/
def zeroConfig : alicloudESAProviderConfig :=
  { AccessKeyId := ⟨"", ""⟩, AccessKeySecret := ⟨"", ""⟩, RegionId := "" }

/-- Go `loadConfig`: the config and the error (`none` for `nil`). -/
def loadConfig {σ : Type} (env : Env σ) (cfgJSON : Option JSON) :
    alicloudESAProviderConfig × Option Err :=
  match cfgJSON with
  | none => (zeroConfig, none)
  | some j =>
    let r := jsonUnmarshal env j.Raw zeroConfig
    match r.2 with
    | some err => (r.1, some (Err.wrap "error decoding solver config" (Err.ext err)))
    | none => (r.1, none)

/-- Go `loadSecretData`. -/
def loadSecretData {σ : Type} (env : Env σ) (w : World σ) (selector : SecretKeySelector)
    (ns : String) : Except Err Bytes × World σ :=
  let r := callSecretsGet env w ns selector.Name
  match r.1 with
  | Except.error err => (Except.error (Err.loadSecret (ns ++ "/" ++ selector.Name) (Err.ext err)), r.2)
  | Except.ok secret =>
    match secret.Data.lookup selector.Key with
    | some data => (Except.ok data, r.2)
    | none => (Except.error (Err.noKey selector.Key (ns ++ "/" ++ selector.Name)), r.2)

/-- The inner `for _, site := range response.Body.Sites` of `getSiteId`: the ID
it returns, or `none` when the loop falls through. -/
def scanSites (target : String) : List Site → Option Int
  | [] => none
  | site :: rest =>
    if site.SiteName = some target then
      match site.SiteId with
      | some id => some id
      | none => scanSites target rest
    else scanSites target rest

/-- The loop of `getSiteId`, from the request it is about to send. -/
def getSiteIdLoop {σ : Type} (env : Env σ) (cl : Client) (domain : String) :
    Nat → World σ → ListSitesRequest → Option (Except Err Int) × World σ
  | 0, w, _ => (none, w)
  | fuel + 1, w, request =>
    let r := callListSites env w cl request
    match r.1 with
    | Except.error err => (some (Except.error (Err.wrap "failed to list sites" (Err.ext err))), r.2)
    | Except.ok body =>
      match scanSites (UnFqdn domain) body.Sites with
      | some id => (some (Except.ok id), r.2)
      | none =>
        match body.PageNumber, body.PageSize, body.TotalCount with
        | some pn, some ps, some tc =>
          if mul32 pn ps ≥ tc then (some (Except.error (Err.siteNotFound domain)), r.2)
          else getSiteIdLoop env cl domain fuel r.2 { request with PageNumber := add32 pn 1 }
        | _, _, _ => (some (Except.error (Err.siteNotFound domain)), r.2)

/-- Go `getSiteId`, on the client held by the solver. -/
def getSiteId {σ : Type} (env : Env σ) (fuel : Nat) (w : World σ) (cl : Client)
    (domain : String) : Option (Except Err Int) × World σ :=
  getSiteIdLoop env cl domain fuel w { PageNumber := 1, PageSize := 100 }

/-- Go `extractRecordName`. -/
def extractRecordName (fqdn _domain : String) : String := UnFqdn fqdn

/-- Go `createTxtRecord`. -/
def createTxtRecord {σ : Type} (env : Env σ) (w : World σ) (cl : Client) (siteId : Int)
    (recordName value : String) : Except Err Unit × World σ :=
  let request : CreateRecordRequest :=
    { SiteId := siteId, Typ := "TXT", RecordName := recordName, Data := ⟨value⟩, Ttl := 300 }
  let r := callCreateRecord env w cl request
  match r.1 with
  | some err => (Except.error (Err.wrap "failed to create TXT record" (Err.ext err)), r.2)
  | none => (Except.ok (), r.2)

/-- The test `record.Data != nil && record.Data.Value != nil && *record.Data.Value == value`. -/
def recordMatches (value : String) (record : Record) : Bool :=
  match record.Data with
  | some d => decide (d.Value = some value)
  | none => false

/-- The inner `for _, record := range listResponse.Body.Records` of
`deleteTxtRecord`: the record on which the loop body runs (and returns). -/
def scanRecords (value : String) : List Record → Option Record
  | [] => none
  | record :: rest => if recordMatches value record then some record else scanRecords value rest

/-- The loop of `deleteTxtRecord`, from the request it is about to send. -/
def deleteTxtRecordLoop {σ : Type} (env : Env σ) (cl : Client) (value : String) :
    Nat → World σ → ListRecordsRequest → Option (Except Err Unit) × World σ
  | 0, w, _ => (none, w)
  | fuel + 1, w, listRequest =>
    let r := callListRecords env w cl listRequest
    match r.1 with
    | Except.error err => (some (Except.error (Err.wrap "failed to list records" (Err.ext err))), r.2)
    | Except.ok body =>
      match scanRecords value body.Records with
      | some record =>
        let d := callDeleteRecord env r.2 cl { RecordId := record.RecordId }
        match d.1 with
        | some err => (some (Except.error (Err.wrap "failed to delete record" (Err.ext err))), d.2)
        | none => (some (Except.ok ()), d.2)
      | none =>
        match body.PageNumber, body.PageSize, body.TotalCount with
        | some pn, some ps, some tc =>
          if mul32 pn ps ≥ tc then (some (Except.ok ()), r.2)
          else deleteTxtRecordLoop env cl value fuel r.2 { listRequest with PageNumber := add32 pn 1 }
        | _, _, _ => (some (Except.ok ()), r.2)

/-- Go `deleteTxtRecord`, on the client held by the solver. -/
def deleteTxtRecord {σ : Type} (env : Env σ) (fuel : Nat) (w : World σ) (cl : Client)
    (siteId : Int) (recordName value : String) : Option (Except Err Unit) × World σ :=
  deleteTxtRecordLoop env cl value fuel w
    { SiteId := siteId, Typ := "TXT", RecordName := recordName, PageNumber := 1, PageSize := 100 }

/-- What one call of `Present` / `CleanUp` leaves behind: the returned error
(`none` when the call ran out of fuel), the solver and the world. -/
structure Ran (σ : Type) where
  result : Option (Except Err Unit)
  solver : alicloudESAProviderSolver
  world : World σ

/-- The block shared by `Present` (lines 87-114) and `CleanUp` (lines 146-172):
load both secrets, build the credential, build the client with the given
endpoint and store it in the solver.  The assignment
`c.esaClient, err = esa.NewClient(...)` stores the client before `err` is tested. -/
def buildClient {σ : Type} (env : Env σ) (w : World σ) (c : alicloudESAProviderSolver)
    (cfg : alicloudESAProviderConfig) (ns : String) (endpoint : String) :
    Except Err Client × alicloudESAProviderSolver × World σ :=
  let r1 := loadSecretData env w cfg.AccessKeyId ns
  match r1.1 with
  | Except.error e => (Except.error e, c, r1.2)
  | Except.ok accessKeyId =>
    let r2 := loadSecretData env r1.2 cfg.AccessKeySecret ns
    match r2.1 with
    | Except.error e => (Except.error e, c, r2.2)
    | Except.ok accessKeySecret =>
      let config : CredentialsConfig :=
        { Typ := "access_key", AccessKeyId := accessKeyId, AccessKeySecret := accessKeySecret }
      let r3 := callNewCredential env r2.2 config
      match r3.1 with
      | some err => (Except.error (Err.wrap "failed to create credential" (Err.ext err)), c, r3.2)
      | none =>
        let r4 := callNewClient env r3.2
          { Credential := config, RegionId := cfg.RegionId, Endpoint := endpoint }
        match r4.1.2 with
        | some err =>
          (Except.error (Err.wrap "failed to create ESA client" (Err.ext err)),
            { esaClient := some r4.1.1 }, r4.2)
        | none => (Except.ok r4.1.1, { esaClient := some r4.1.1 }, r4.2)

/-- Lines 116-129 of `Present`: resolve the site and create the record, on the
client `cl` that the solver `c` holds at that point. -/
def presentRecord {σ : Type} (env : Env σ) (fuel : Nat) (w : World σ)
    (c : alicloudESAProviderSolver) (cl : Client) (ch : ChallengeRequest) : Ran σ :=
  let s := getSiteId env fuel w cl ch.ResolvedZone
  match s.1 with
  | none => ⟨none, c, s.2⟩
  | some (Except.error e) => ⟨some (Except.error (Err.wrap "failed to get site ID" e)), c, s.2⟩
  | some (Except.ok siteId) =>
    let recordName := extractRecordName ch.ResolvedFQDN ch.ResolvedZone
    let t := createTxtRecord env s.2 cl siteId recordName ch.Key
    match t.1 with
    | Except.error e => ⟨some (Except.error (Err.wrap "failed to create TXT record" e)), c, t.2⟩
    | Except.ok _ => ⟨some (Except.ok ()), c, t.2⟩

/-- Go `Present`. -/
def Present {σ : Type} (env : Env σ) (fuel : Nat) (w : World σ) (c : alicloudESAProviderSolver)
    (ch : ChallengeRequest) : Ran σ :=
  let cfg := loadConfig env ch.Config
  match cfg.2 with
  | some err => ⟨some (Except.error err), c, w⟩
  | none =>
    let b := buildClient env w c cfg.1 ch.ResourceNamespace
      ("esa." ++ cfg.1.RegionId ++ ".aliyuncs.com")
    match b.1 with
    | Except.error e => ⟨some (Except.error e), b.2.1, b.2.2⟩
    | Except.ok cl => presentRecord env fuel b.2.2 b.2.1 cl ch

/-- Lines 175-188 of `CleanUp`: resolve the site and delete the record, on the
client `cl` that the solver `c` holds at that point. -/
def cleanUpRecord {σ : Type} (env : Env σ) (fuel : Nat) (w : World σ)
    (c : alicloudESAProviderSolver) (cl : Client) (ch : ChallengeRequest) : Ran σ :=
  let s := getSiteId env fuel w cl ch.ResolvedZone
  match s.1 with
  | none => ⟨none, c, s.2⟩
  | some (Except.error e) => ⟨some (Except.error (Err.wrap "failed to get site ID" e)), c, s.2⟩
  | some (Except.ok siteId) =>
    let recordName := extractRecordName ch.ResolvedFQDN ch.ResolvedZone
    let t := deleteTxtRecord env fuel s.2 cl siteId recordName ch.Key
    match t.1 with
    | none => ⟨none, c, t.2⟩
    | some (Except.error e) =>
      ⟨some (Except.error (Err.wrap "failed to delete TXT record" e)), c, t.2⟩
    | some (Except.ok _) => ⟨some (Except.ok ()), c, t.2⟩

/-- Go `CleanUp`. -/
def CleanUp {σ : Type} (env : Env σ) (fuel : Nat) (w : World σ) (c : alicloudESAProviderSolver)
    (ch : ChallengeRequest) : Ran σ :=
  let cfg := loadConfig env ch.Config
  match cfg.2 with
  | some err => ⟨some (Except.error err), c, w⟩
  | none =>
    match c.esaClient with
    | some cl => cleanUpRecord env fuel w c cl ch
    | none =>
      let b := buildClient env w c cfg.1 ch.ResourceNamespace "esa.ap-southeast-1.aliyuncs.com"
      match b.1 with
      | Except.error e => ⟨some (Except.error e), b.2.1, b.2.2⟩
      | Except.ok cl => cleanUpRecord env fuel b.2.2 b.2.1 cl ch

/-! ## Reading the log -/

/-- The calls a run from world `w` to world `w2` has issued. -/
def issued {σ : Type} (w w2 : World σ) : List Event := w2.log.drop w.log.length

/-- The sites of the pages a log lists, in order. -/
def sitesListed : List Event → List Site
  | [] => []
  | Event.listSites _ _ (Except.ok body) :: es => body.Sites ++ sitesListed es
  | _ :: es => sitesListed es

/-- The records of the pages a log lists, in order. -/
def recordsListed : List Event → List Record
  | [] => []
  | Event.listRecords _ _ (Except.ok body) :: es => body.Records ++ recordsListed es
  | _ :: es => recordsListed es

/-- The list-sites requests of a log. -/
def listSitesCalls : List Event → List ListSitesRequest
  | [] => []
  | Event.listSites _ req _ :: es => req :: listSitesCalls es
  | _ :: es => listSitesCalls es

/-- The delete-record requests of a log. -/
def deleteCalls : List Event → List DeleteRecordRequest
  | [] => []
  | Event.deleteRecord _ req _ :: es => req :: deleteCalls es
  | _ :: es => deleteCalls es

/-- The create-record calls of a log: the client each went through, the request
and the error it was answered with. -/
def createCalls : List Event → List (Client × CreateRecordRequest × Option String)
  | [] => []
  | Event.createRecord cl req err :: es => (cl, req, err) :: createCalls es
  | _ :: es => createCalls es

/-- The client a remote ESA call went through; `none` for the calls that set a
client up (secret lookups and the SDK constructors). -/
def Event.client : Event → Option Client
  | Event.listSites cl _ _ => some cl
  | Event.createRecord cl _ _ => some cl
  | Event.listRecords cl _ _ => some cl
  | Event.deleteRecord cl _ _ => some cl
  | _ => none

/-- The configurations given to `esa.NewClient` in a log. -/
def clientsBuilt : List Event → List OpenapiConfig
  | [] => []
  | Event.newClient cfg _ :: es => cfg :: clientsBuilt es
  | _ :: es => clientsBuilt es

/-- The secret lookups of a log: namespace and secret name. -/
def secretLookups : List Event → List (String × String)
  | [] => []
  | Event.secretsGet ns name _ :: es => (ns, name) :: secretLookups es
  | _ :: es => secretLookups es

/-- Whether an event is a failed list-records or delete-record call. -/
def Event.recordCallFailed : Event → Bool
  | Event.listRecords _ _ (Except.error _) => true
  | Event.deleteRecord _ _ (some _) => true
  | _ => false

/-- Whether an event is a failed list call (sites or records). -/
def Event.listFailed : Event → Bool
  | Event.listRecords _ _ (Except.error _) => true
  | Event.listSites _ _ (Except.error _) => true
  | _ => false

/-- The pagination test of both loops on a response's counters: `true` when the
loop goes on to request another page. -/
def pageContinues (pageNumber pageSize totalCount : Option Int) : Bool :=
  match pageNumber, pageSize, totalCount with
  | some pn, some ps, some tc => decide (¬ (mul32 pn ps ≥ tc))
  | _, _, _ => false

/-- Whether a list event is a successful page after which the loop asks for more. -/
def Event.pageGoesOn : Event → Bool
  | Event.listSites _ _ (Except.ok body) =>
    pageContinues body.PageNumber body.PageSize body.TotalCount
  | Event.listRecords _ _ (Except.ok body) =>
    pageContinues body.PageNumber body.PageSize body.TotalCount
  | _ => false

/-! ## The vocabulary of the statements -/

/-- A listed record carries the value: its data and the value in it are present
and the value equals `value` exactly. -/
def Record.hasValue (r : Record) (value : String) : Prop :=
  ∃ d, r.Data = some d ∧ d.Value = some value

instance (r : Record) (value : String) : Decidable (r.hasValue value) :=
  decidable_of_iff (recordMatches value r = true) (by
    unfold recordMatches Record.hasValue
    cases r.Data with
    | none => simp
    | some d => simp)

/-- A listed site is the site of `name` and can be returned: its name is
present and equals `name` exactly, and its ID is present. -/
def Site.resolves (s : Site) (name : String) : Prop :=
  s.SiteName = some name ∧ s.SiteId ≠ none

instance (s : Site) (name : String) : Decidable (s.resolves name) := by
  unfold Site.resolves
  infer_instance

/-- The enumeration a log records has ended: its last call was not answered by
a page after which the loop asks for more. -/
def enumerationEnded (es : List Event) : Prop :=
  es.getLast?.map Event.pageGoesOn = some false

instance (es : List Event) : Decidable (enumerationEnded es) := by
  unfold enumerationEnded
  infer_instance

/-- Integer division rounded up, for a positive divisor. -/
def ceilDiv (a b : Int) : Int := (a + b - 1) / b

/-- What `getSiteId` returns once it has scanned `sites` to the end. -/
def siteResult (domain : String) (sites : List Site) : Except Err Int :=
  match scanSites (UnFqdn domain) sites with
  | some id => Except.ok id
  | none => Except.error (Err.siteNotFound domain)

/-- A call that started in world `w` on solver `c` has returned an error, has
built no client and has left the solver as it was. -/
def failedWithoutClient {σ : Type} (w : World σ) (c : alicloudESAProviderSolver)
    (run : Ran σ) : Prop :=
  (∃ e, run.result = some (Except.error e)) ∧ clientsBuilt (issued w run.world) = [] ∧
    run.solver = c

/-- Two calls of `Present` followed by one call of `CleanUp`, all with the same
request, each on the solver and the world the previous call left. -/
def presentTwiceThenCleanUp {σ : Type} (env : Env σ) (fuel : Nat) (w : World σ)
    (c : alicloudESAProviderSolver) (ch : ChallengeRequest) : Ran σ :=
  let a := Present env fuel w c ch
  let b := Present env fuel a.world a.solver ch
  CleanUp env fuel b.world b.solver ch

/-! ## The shape of a run of each loop -/

/-- The logs a run of the loop of `getSiteId` can leave, with the result it
returns: pages that list no site to return and ask for more, closed by running
out of fuel, a failed call, a page with a site to return, or a last page. -/
inductive SiteRun (cl : Client) (domain : String) :
    List Event → Option (Except Err Int) → Prop where
  | outOfFuel : SiteRun cl domain [] none
  | listFailed (req : ListSitesRequest) (err : String) :
    SiteRun cl domain [Event.listSites cl req (Except.error err)]
      (some (Except.error (Err.wrap "failed to list sites" (Err.ext err))))
  | found (req : ListSitesRequest) (body : ListSitesResponseBody) (id : Int)
    (h : scanSites (UnFqdn domain) body.Sites = some id) :
    SiteRun cl domain [Event.listSites cl req (Except.ok body)] (some (Except.ok id))
  | lastPage (req : ListSitesRequest) (body : ListSitesResponseBody)
    (h : scanSites (UnFqdn domain) body.Sites = none)
    (hstop : pageContinues body.PageNumber body.PageSize body.TotalCount = false) :
    SiteRun cl domain [Event.listSites cl req (Except.ok body)]
      (some (Except.error (Err.siteNotFound domain)))
  | nextPage (req : ListSitesRequest) (body : ListSitesResponseBody)
    (es : List Event) (res : Option (Except Err Int))
    (h : scanSites (UnFqdn domain) body.Sites = none)
    (hgo : pageContinues body.PageNumber body.PageSize body.TotalCount = true)
    (rest : SiteRun cl domain es res) :
    SiteRun cl domain (Event.listSites cl req (Except.ok body) :: es) res

/-- The logs a run of the loop of `deleteTxtRecord` can leave, with the result
it returns. -/
inductive DeleteRun (cl : Client) (value : String) :
    List Event → Option (Except Err Unit) → Prop where
  | outOfFuel : DeleteRun cl value [] none
  | listFailed (req : ListRecordsRequest) (err : String) :
    DeleteRun cl value [Event.listRecords cl req (Except.error err)]
      (some (Except.error (Err.wrap "failed to list records" (Err.ext err))))
  | deleted (req : ListRecordsRequest) (body : ListRecordsResponseBody) (record : Record)
    (h : scanRecords value body.Records = some record) :
    DeleteRun cl value
      [Event.listRecords cl req (Except.ok body),
       Event.deleteRecord cl { RecordId := record.RecordId } none]
      (some (Except.ok ()))
  | deleteFailed (req : ListRecordsRequest) (body : ListRecordsResponseBody) (record : Record)
    (err : String) (h : scanRecords value body.Records = some record) :
    DeleteRun cl value
      [Event.listRecords cl req (Except.ok body),
       Event.deleteRecord cl { RecordId := record.RecordId } (some err)]
      (some (Except.error (Err.wrap "failed to delete record" (Err.ext err))))
  | lastPage (req : ListRecordsRequest) (body : ListRecordsResponseBody)
    (h : scanRecords value body.Records = none)
    (hstop : pageContinues body.PageNumber body.PageSize body.TotalCount = false) :
    DeleteRun cl value [Event.listRecords cl req (Except.ok body)] (some (Except.ok ()))
  | nextPage (req : ListRecordsRequest) (body : ListRecordsResponseBody)
    (es : List Event) (res : Option (Except Err Unit))
    (h : scanRecords value body.Records = none)
    (hgo : pageContinues body.PageNumber body.PageSize body.TotalCount = true)
    (rest : DeleteRun cl value es res) :
    DeleteRun cl value (Event.listRecords cl req (Except.ok body) :: es) res

/-! ## The SDK constructors -/

/-- A JSON decoder for the provider configuration: from the raw bytes and the
config to fill in, the filled-in config and the error. -/
abbrev Decoder := Bytes → alicloudESAProviderConfig → alicloudESAProviderConfig × Option String

/-- The check `credentials.NewCredential` makes for the type `access_key`: the
access key ID and the access key secret must not be empty. -/
def checkAccessKey (cfg : CredentialsConfig) : Option String :=
  if cfg.AccessKeyId = [] then some "AccessKeyId cannot be empty"
  else if cfg.AccessKeySecret = [] then some "AccessKeySecret cannot be empty"
  else none

/-- The check `esa.NewClient` makes on the configuration the solver hands it:
the endpoint must not be empty. -/
def checkEndpoint (cfg : OpenapiConfig) : Option String :=
  if cfg.Endpoint = "" then some "config.endpoint can not be empty" else none

/-! ## A provider that is a store of records

The remote side as a concrete world: secrets, sites and records are lists;
create-record adds a record under a fresh ID, delete-record removes the record
with the given ID, and both list operations serve the requested page of the
requested size together with the three pagination counters. -/

/-- A record held by the store. -/
structure StoreRecord where
  RecordId : Int
  SiteId : Int
  Typ : String
  RecordName : String
  Value : String
  Ttl : Int
  deriving DecidableEq, Repr

/-- A site held by the store. -/
structure StoreSite where
  SiteId : Int
  SiteName : String
  deriving DecidableEq, Repr

/-- The state of the store. -/
structure Store where
  secrets : List ((String × String) × Secret)
  sites : List StoreSite
  records : List StoreRecord
  nextId : Int
  deriving DecidableEq, Repr

/-- Page `pageNumber` (counted from 1) of `xs` cut into pages of `pageSize`. -/
def pageOf {α : Type} (xs : List α) (pageNumber pageSize : Int) : List α :=
  (xs.drop ((pageNumber - 1) * pageSize).toNat).take pageSize.toNat

/-- A stored site as it is listed. -/
def StoreSite.listed (s : StoreSite) : Site := { SiteId := some s.SiteId, SiteName := some s.SiteName }

/-- A stored record as it is listed. -/
def StoreRecord.listed (r : StoreRecord) : Record :=
  { RecordId := some r.RecordId, RecordName := some r.RecordName, Data := some ⟨some r.Value⟩ }

/-- The records a list-records request selects: by site, type and name. -/
def Store.selected (s : Store) (req : ListRecordsRequest) : List StoreRecord :=
  s.records.filter (fun r =>
    decide (r.SiteId = req.SiteId) && decide (r.Typ = req.Typ) && decide (r.RecordName = req.RecordName))

/-- The store as an environment; `decode` is the JSON decoder applied to a
non-empty configuration blob, and the SDK constructors make the checks of
`checkAccessKey` and `checkEndpoint`. -/
def storeEnv (decode : Decoder) : Env Store where
  jsonDecode := decode
  secretsGet := fun s ns name =>
    match s.secrets.lookup (ns, name) with
    | some secret => (Except.ok secret, s)
    | none => (Except.error "not found", s)
  newCredential := checkAccessKey
  newClient := checkEndpoint
  listSites := fun s _ req =>
    (Except.ok
      { Sites := pageOf (s.sites.map StoreSite.listed) req.PageNumber req.PageSize,
        PageNumber := some req.PageNumber,
        PageSize := some req.PageSize,
        TotalCount := some (s.sites.length : Int) }, s)
  createRecord := fun s _ req =>
    (none,
      { s with
        records := s.records ++
          [{ RecordId := s.nextId, SiteId := req.SiteId, Typ := req.Typ,
             RecordName := req.RecordName, Value := req.Data.Value, Ttl := req.Ttl }],
        nextId := s.nextId + 1 })
  listRecords := fun s _ req =>
    (Except.ok
      { Records := pageOf ((s.selected req).map StoreRecord.listed) req.PageNumber req.PageSize,
        PageNumber := some req.PageNumber,
        PageSize := some req.PageSize,
        TotalCount := some ((s.selected req).length : Int) }, s)
  deleteRecord := fun s _ req =>
    match req.RecordId with
    | some id => (none, { s with records := s.records.filter (fun r => decide (r.RecordId ≠ id)) })
    | none => (some "RecordId is required", s)

/-- The TXT records of the store under site `siteId` with the given name and value. -/
def Store.txtRecords (s : Store) (siteId : Int) (name value : String) : List StoreRecord :=
  s.records.filter (fun r =>
    decide (r.SiteId = siteId) && decide (r.Typ = "TXT") && decide (r.RecordName = name)
      && decide (r.Value = value))

/-- The bytes the store holds for a secret reference in a namespace. -/
def Store.secretData (s : Store) (selector : SecretKeySelector) (ns : String) : Option Bytes :=
  match s.secrets.lookup (ns, selector.Name) with
  | some secret => secret.Data.lookup selector.Key
  | none => none

/-- The record a create-record call of `Present` adds to the store. -/
def Store.withTxtRecord (s : Store) (siteId : Int) (name value : String) : Store :=
  { s with
    records := s.records ++
      [{ RecordId := s.nextId, SiteId := siteId, Typ := "TXT", RecordName := name,
         Value := value, Ttl := 300 }],
    nextId := s.nextId + 1 }

/-- The store after the delete that `deleteTxtRecord` issues on finding `found`. -/
def Store.afterDelete (s : Store) (found : Option Record) : Store :=
  match found with
  | some record =>
    match record.RecordId with
    | some id => { s with records := s.records.filter (fun r => decide (r.RecordId ≠ id)) }
    | none => s
  | none => s

/-- The record IDs of the store are pairwise distinct and below the next ID. -/
def Store.freshIds (s : Store) : Prop :=
  (s.records.map StoreRecord.RecordId).Nodup ∧ ∀ r ∈ s.records, r.RecordId < s.nextId

instance (s : Store) : Decidable s.freshIds := by
  unfold Store.freshIds
  infer_instance

/-! ## Sample data -/

/-- The configuration used in the examples. -/
def sampleConfig : alicloudESAProviderConfig :=
  { AccessKeyId := ⟨"esa-credentials", "id"⟩,
    AccessKeySecret := ⟨"esa-credentials", "secret"⟩,
    RegionId := "cn-hangzhou" }

/-- The bytes of an ASCII text. -/
def asciiBytes (text : String) : Bytes := text.data.map (fun ch => UInt8.ofNat ch.toNat)

/-- The configuration blob of the examples: the JSON text of `sampleConfig`. -/
def sampleBlob : Bytes :=
  asciiBytes ("\x7b\"accessKeyIdSecretRef\":\x7b\"name\":\"esa-credentials\",\"key\":\"id\"\x7d,"
    ++ "\"accessKeySecretSecretRef\":\x7b\"name\":\"esa-credentials\",\"key\":\"secret\"\x7d,"
    ++ "\"regionId\":\"cn-hangzhou\"\x7d")

/-- The JSON decoder of the examples, a table with the two entries they need:
`sampleBlob` fills in `sampleConfig`, the empty object leaves the config as it
is, and a blob without an entry is answered with an error. -/
def sampleDecode : Decoder := fun raw cfg =>
  if raw = sampleBlob then (sampleConfig, none)
  else if raw = asciiBytes "\x7b\x7d" then (cfg, none)
  else (cfg, some "no entry for this blob")

/-- The challenge of the scenario in the specification. -/
def sampleChallenge : ChallengeRequest :=
  { ResolvedFQDN := "_acme-challenge.example.com.",
    ResolvedZone := "example.com.",
    Key := "abc123",
    ResourceNamespace := "cert-manager",
    Config := some ⟨sampleBlob⟩ }

/-- A store with the credentials secret, the site `example.com` and no record. -/
def sampleStore : Store :=
  { secrets := [(("cert-manager", "esa-credentials"), ⟨[("id", [65]), ("secret", [66])]⟩)],
    sites := [⟨7, "example.org"⟩, ⟨42, "example.com"⟩],
    records := [],
    nextId := 1 }

/-- The client `Present` builds in the examples. -/
def sampleClient : Client :=
  ⟨{ Credential := { Typ := "access_key", AccessKeyId := [65], AccessKeySecret := [66] },
     RegionId := "cn-hangzhou",
     Endpoint := "esa.cn-hangzhou.aliyuncs.com" }⟩

/-- A provider without state that answers the list calls from fixed tables and
every delete call with the same answer; it holds no secret and decodes no
configuration: it serves the runs of the two loops. -/
def replyEnv (sites : ListSitesRequest → Except String ListSitesResponseBody)
    (records : ListRecordsRequest → Except String ListRecordsResponseBody)
    (deleteErr : Option String) : Env Unit where
  jsonDecode := fun _ cfg => (cfg, some "no configuration is decoded here")
  secretsGet := fun s _ _ => (Except.error "not found", s)
  newCredential := checkAccessKey
  newClient := checkEndpoint
  listSites := fun s _ req => (sites req, s)
  createRecord := fun s _ _ => (none, s)
  listRecords := fun s _ req => (records req, s)
  deleteRecord := fun s _ _ => (deleteErr, s)

/-- One page of two records under the challenge name, with values `key2` and
`key1`, and no pagination counters. -/
def twoRecordsPage : ListRecordsRequest → Except String ListRecordsResponseBody :=
  fun _ => Except.ok
    { Records :=
        [{ RecordId := some 11, RecordName := some "_acme-challenge.example.com",
           Data := some ⟨some "key2"⟩ },
         { RecordId := some 12, RecordName := some "_acme-challenge.example.com",
           Data := some ⟨some "key1"⟩ }],
      PageNumber := none, PageSize := none, TotalCount := none }

/-- No site is listed. -/
def noSites : ListSitesRequest → Except String ListSitesResponseBody :=
  fun req => Except.ok
    { Sites := [], PageNumber := some req.PageNumber, PageSize := some req.PageSize,
      TotalCount := some 0 }

/-- One page with a single site named `example.com` that carries no ID, and no
pagination counters. -/
def siteWithoutId : ListSitesRequest → Except String ListSitesResponseBody :=
  fun _ => Except.ok
    { Sites := [{ SiteId := none, SiteName := some "example.com" }],
      PageNumber := none, PageSize := none, TotalCount := none }

/-- A provider of 250 sites, none of them the one looked for, in pages of 100:
every answer is an empty page with the requested page number. -/
def threePages : ListSitesRequest → Except String ListSitesResponseBody :=
  fun req => Except.ok
    { Sites := [], PageNumber := some req.PageNumber, PageSize := some 100,
      TotalCount := some 250 }

/-- A provider whose counters make `pageNumber * pageSize` leave the `int32`
range: page size `2^30`, total count `2^31 - 1`. -/
def hugePages : ListSitesRequest → Except String ListSitesResponseBody :=
  fun req => Except.ok
    { Sites := [], PageNumber := some req.PageNumber, PageSize := some 1073741824,
      TotalCount := some 2147483647 }

/-! ## Lemmas on the log and the loops -/

theorem issued_of_log_eq {σ : Type} (w w2 : World σ) (es : List Event)
    (h : w2.log = w.log ++ es) : issued w w2 = es := by
  simp [issued, h]

theorem getSiteIdLoop_run {σ : Type} (env : Env σ) (cl : Client) (domain : String) :
    ∀ (fuel : Nat) (w : World σ) (req : ListSitesRequest),
      ∃ es, (getSiteIdLoop env cl domain fuel w req).2.log = w.log ++ es ∧
        SiteRun cl domain es (getSiteIdLoop env cl domain fuel w req).1 := by
  intro fuel
  induction fuel with
  | zero => intro w req; exact ⟨[], by simp [getSiteIdLoop], SiteRun.outOfFuel⟩
  | succ n ih =>
    intro w req
    simp only [getSiteIdLoop, callListSites]
    cases hr : (env.listSites w.st cl req).1 with
    | error err => exact ⟨_, rfl, SiteRun.listFailed req err⟩
    | ok body =>
      simp only []
      cases hs : scanSites (UnFqdn domain) body.Sites with
      | some id => exact ⟨_, rfl, SiteRun.found req body id hs⟩
      | none =>
        simp only []
        have hlast : pageContinues body.PageNumber body.PageSize body.TotalCount = false →
            ∃ es, (World.mk (env.listSites w.st cl req).2
                (w.log ++ [Event.listSites cl req (Except.ok body)])).log = w.log ++ es ∧
              SiteRun cl domain es (some (Except.error (Err.siteNotFound domain))) :=
          fun hstop => ⟨_, rfl, SiteRun.lastPage req body hs hstop⟩
        cases hpn : body.PageNumber with
        | none => exact hlast (by simp [pageContinues, hpn])
        | some pn =>
          cases hps : body.PageSize with
          | none => exact hlast (by simp [pageContinues, hpn, hps])
          | some ps =>
            cases htc : body.TotalCount with
            | none => exact hlast (by simp [pageContinues, hpn, hps, htc])
            | some tc =>
              simp only []
              by_cases hge : mul32 pn ps ≥ tc
              · rw [if_pos hge]
                exact hlast (by simp [pageContinues, hpn, hps, htc, hge])
              · rw [if_neg hge]
                obtain ⟨es, hlog, hrun⟩ := ih
                  ⟨(env.listSites w.st cl req).2,
                    w.log ++ [Event.listSites cl req (Except.ok body)]⟩
                  { req with PageNumber := add32 pn 1 }
                refine ⟨Event.listSites cl req (Except.ok body) :: es, ?_, ?_⟩
                · rw [hlog]; simp
                · exact SiteRun.nextPage req body es _ hs
                    (by simp [pageContinues, hpn, hps, htc, hge]) hrun

theorem deleteTxtRecordLoop_run {σ : Type} (env : Env σ) (cl : Client) (value : String) :
    ∀ (fuel : Nat) (w : World σ) (req : ListRecordsRequest),
      ∃ es, (deleteTxtRecordLoop env cl value fuel w req).2.log = w.log ++ es ∧
        DeleteRun cl value es (deleteTxtRecordLoop env cl value fuel w req).1 := by
  intro fuel
  induction fuel with
  | zero => intro w req; exact ⟨[], by simp [deleteTxtRecordLoop], DeleteRun.outOfFuel⟩
  | succ n ih =>
    intro w req
    simp only [deleteTxtRecordLoop, callListRecords, callDeleteRecord]
    cases hr : (env.listRecords w.st cl req).1 with
    | error err => exact ⟨_, rfl, DeleteRun.listFailed req err⟩
    | ok body =>
      simp only []
      cases hs : scanRecords value body.Records with
      | some record =>
        simp only []
        cases hd : (env.deleteRecord (env.listRecords w.st cl req).2 cl
            { RecordId := record.RecordId }).1 with
        | some err =>
          refine ⟨[Event.listRecords cl req (Except.ok body),
            Event.deleteRecord cl { RecordId := record.RecordId } (some err)], ?_, ?_⟩
          · simp
          · exact DeleteRun.deleteFailed req body record err hs
        | none =>
          refine ⟨[Event.listRecords cl req (Except.ok body),
            Event.deleteRecord cl { RecordId := record.RecordId } none], ?_, ?_⟩
          · simp
          · exact DeleteRun.deleted req body record hs
      | none =>
        simp only []
        have hlast : pageContinues body.PageNumber body.PageSize body.TotalCount = false →
            ∃ es, (World.mk (env.listRecords w.st cl req).2
                (w.log ++ [Event.listRecords cl req (Except.ok body)])).log = w.log ++ es ∧
              DeleteRun cl value es (some (Except.ok ())) :=
          fun hstop => ⟨_, rfl, DeleteRun.lastPage req body hs hstop⟩
        cases hpn : body.PageNumber with
        | none => exact hlast (by simp [pageContinues, hpn])
        | some pn =>
          cases hps : body.PageSize with
          | none => exact hlast (by simp [pageContinues, hpn, hps])
          | some ps =>
            cases htc : body.TotalCount with
            | none => exact hlast (by simp [pageContinues, hpn, hps, htc])
            | some tc =>
              simp only []
              by_cases hge : mul32 pn ps ≥ tc
              · rw [if_pos hge]
                exact hlast (by simp [pageContinues, hpn, hps, htc, hge])
              · rw [if_neg hge]
                obtain ⟨es, hlog, hrun⟩ := ih
                  ⟨(env.listRecords w.st cl req).2,
                    w.log ++ [Event.listRecords cl req (Except.ok body)]⟩
                  { req with PageNumber := add32 pn 1 }
                refine ⟨Event.listRecords cl req (Except.ok body) :: es, ?_, ?_⟩
                · rw [hlog]; simp
                · exact DeleteRun.nextPage req body es _ hs
                    (by simp [pageContinues, hpn, hps, htc, hge]) hrun

theorem getSiteId_run {σ : Type} (env : Env σ) (fuel : Nat) (w : World σ) (cl : Client)
    (domain : String) :
    (getSiteId env fuel w cl domain).2.log
        = w.log ++ issued w (getSiteId env fuel w cl domain).2 ∧
      SiteRun cl domain (issued w (getSiteId env fuel w cl domain).2)
        (getSiteId env fuel w cl domain).1 := by
  obtain ⟨es, hlog, hrun⟩ := getSiteIdLoop_run env cl domain fuel w
    { PageNumber := 1, PageSize := 100 }
  have h : issued w (getSiteId env fuel w cl domain).2 = es := issued_of_log_eq _ _ _ hlog
  rw [h]
  exact ⟨hlog, hrun⟩

theorem deleteTxtRecord_run {σ : Type} (env : Env σ) (fuel : Nat) (w : World σ) (cl : Client)
    (siteId : Int) (recordName value : String) :
    (deleteTxtRecord env fuel w cl siteId recordName value).2.log
        = w.log ++ issued w (deleteTxtRecord env fuel w cl siteId recordName value).2 ∧
      DeleteRun cl value (issued w (deleteTxtRecord env fuel w cl siteId recordName value).2)
        (deleteTxtRecord env fuel w cl siteId recordName value).1 := by
  obtain ⟨es, hlog, hrun⟩ := deleteTxtRecordLoop_run env cl value fuel w
    { SiteId := siteId, Typ := "TXT", RecordName := recordName, PageNumber := 1, PageSize := 100 }
  have h : issued w (deleteTxtRecord env fuel w cl siteId recordName value).2 = es :=
    issued_of_log_eq _ _ _ hlog
  rw [h]
  exact ⟨hlog, hrun⟩

/-! ### The scans find the first entry that qualifies -/

theorem scanRecords_none (value : String) (rs : List Record) :
    scanRecords value rs = none ↔ ∀ r ∈ rs, ¬ r.hasValue value := by
  induction rs with
  | nil => simp [scanRecords]
  | cons r rest ih =>
    have hm : recordMatches value r = true ↔ r.hasValue value := by
      unfold recordMatches Record.hasValue
      cases r.Data with
      | none => simp
      | some d => simp
    by_cases h : recordMatches value r = true
    · simp [scanRecords, h, hm.mp h]
    · have h2 : ¬ r.hasValue value := fun hv => h (hm.mpr hv)
      simp [scanRecords, h, h2, ih]

theorem scanRecords_some (value : String) (rs : List Record) (r : Record)
    (h : scanRecords value rs = some r) :
    ∃ pre post, rs = pre ++ r :: post ∧ (∀ x ∈ pre, ¬ x.hasValue value) ∧ r.hasValue value := by
  induction rs with
  | nil => simp [scanRecords] at h
  | cons x rest ih =>
    have hm : recordMatches value x = true ↔ x.hasValue value := by
      unfold recordMatches Record.hasValue
      cases x.Data with
      | none => simp
      | some d => simp
    by_cases hx : recordMatches value x = true
    · simp only [scanRecords, hx, if_true, Option.some.injEq] at h
      subst h
      exact ⟨[], rest, rfl, by simp, hm.mp hx⟩
    · simp only [scanRecords, hx] at h
      obtain ⟨pre, post, hrest, hpre, hr⟩ := ih h
      refine ⟨x :: pre, post, by simp [hrest], ?_, hr⟩
      intro y hy
      rcases List.mem_cons.mp hy with rfl | hy
      · exact fun hv => hx (hm.mpr hv)
      · exact hpre y hy

theorem scanRecords_first (value : String) (pre post : List Record) (r : Record)
    (hpre : ∀ x ∈ pre, ¬ x.hasValue value) (hr : r.hasValue value) :
    scanRecords value (pre ++ r :: post) = some r := by
  have hm : ∀ x : Record, recordMatches value x = true ↔ x.hasValue value := by
    intro x
    unfold recordMatches Record.hasValue
    cases x.Data with
    | none => simp
    | some d => simp
  induction pre with
  | nil => simp [scanRecords, (hm r).mpr hr]
  | cons x rest ih =>
    have hx : ¬ recordMatches value x = true :=
      fun h => hpre x (List.mem_cons_self _ _) ((hm x).mp h)
    simp only [List.cons_append, scanRecords, hx]
    exact ih (fun y hy => hpre y (List.mem_cons_of_mem _ hy))

theorem scanRecords_append_none (value : String) (a b : List Record)
    (h : scanRecords value a = none) : scanRecords value (a ++ b) = scanRecords value b := by
  induction a with
  | nil => rfl
  | cons x rest ih =>
    by_cases hx : recordMatches value x = true
    · simp [scanRecords, hx] at h
    · simp only [scanRecords, hx] at h
      simp only [List.cons_append, scanRecords, hx]
      exact ih h

theorem scanSites_none (target : String) (ss : List Site) :
    scanSites target ss = none ↔ ∀ s ∈ ss, ¬ s.resolves target := by
  induction ss with
  | nil => simp [scanSites]
  | cons x rest ih =>
    by_cases hn : x.SiteName = some target
    · cases hid : x.SiteId with
      | none => simp [scanSites, hn, hid, ih, Site.resolves]
      | some id => simp [scanSites, hn, hid, Site.resolves]
    · simp [scanSites, hn, ih, Site.resolves]

theorem scanSites_first (target : String) (pre post : List Site) (s : Site) (id : Int)
    (hpre : ∀ x ∈ pre, ¬ x.resolves target) (hn : s.SiteName = some target)
    (hid : s.SiteId = some id) : scanSites target (pre ++ s :: post) = some id := by
  induction pre with
  | nil => simp [scanSites, hn, hid]
  | cons x rest ih =>
    have hx : ¬ x.resolves target := hpre x (List.mem_cons_self _ _)
    have ih2 := ih (fun y hy => hpre y (List.mem_cons_of_mem _ hy))
    by_cases hxn : x.SiteName = some target
    · cases hxid : x.SiteId with
      | none => simp [scanSites, hxn, hxid, ih2]
      | some i => exact absurd ⟨hxn, by simp [hxid]⟩ hx
    · simp [scanSites, hxn, ih2]

theorem scanSites_some (target : String) (ss : List Site) (id : Int)
    (h : scanSites target ss = some id) :
    ∃ pre s post, ss = pre ++ s :: post ∧ (∀ x ∈ pre, ¬ x.resolves target) ∧
      s.SiteName = some target ∧ s.SiteId = some id := by
  induction ss with
  | nil => simp [scanSites] at h
  | cons x rest ih =>
    have step : scanSites target rest = some id → ¬ x.resolves target →
        ∃ pre s post, x :: rest = pre ++ s :: post ∧ (∀ y ∈ pre, ¬ y.resolves target) ∧
          s.SiteName = some target ∧ s.SiteId = some id := by
      intro hrest hx
      obtain ⟨pre, s, post, he, hpre, hn, hid⟩ := ih hrest
      refine ⟨x :: pre, s, post, by simp [he], ?_, hn, hid⟩
      intro y hy
      rcases List.mem_cons.mp hy with rfl | hy
      · exact hx
      · exact hpre y hy
    by_cases hn : x.SiteName = some target
    · cases hid : x.SiteId with
      | none =>
        simp only [scanSites, hn, hid, if_true] at h
        exact step h (by simp [Site.resolves, hid])
      | some i =>
        simp only [scanSites, hn, hid, if_true, Option.some.injEq] at h
        subst h
        exact ⟨[], x, rest, rfl, by simp, hn, hid⟩
    · simp only [scanSites, hn, if_false] at h
      exact step h (by simp [Site.resolves, hn])

theorem scanSites_append_none (target : String) (a b : List Site)
    (h : scanSites target a = none) : scanSites target (a ++ b) = scanSites target b := by
  induction a with
  | nil => rfl
  | cons x rest ih =>
    by_cases hn : x.SiteName = some target
    · cases hid : x.SiteId with
      | none =>
        simp only [scanSites, hn, hid, if_true] at h
        simp only [List.cons_append, scanSites, hn, hid, if_true]
        exact ih h
      | some i => simp [scanSites, hn, hid] at h
    · simp only [scanSites, hn, if_false] at h
      simp only [List.cons_append, scanSites, hn, if_false]
      exact ih h

/-! ### What a run of the delete loop deletes -/

theorem DeleteRun.deletes {cl : Client} {value : String} {es : List Event}
    {res : Option (Except Err Unit)} (hrun : DeleteRun cl value es res) :
    deleteCalls es =
      match scanRecords value (recordsListed es) with
      | some r => [{ RecordId := r.RecordId }]
      | none => [] := by
  induction hrun with
  | outOfFuel => simp [deleteCalls, recordsListed, scanRecords]
  | listFailed req err => simp [deleteCalls, recordsListed, scanRecords]
  | deleted req body record h => simp [deleteCalls, recordsListed, h]
  | deleteFailed req body record err h => simp [deleteCalls, recordsListed, h]
  | lastPage req body h hstop => simp [deleteCalls, recordsListed, h]
  | nextPage req body es res h hgo rest ih =>
    simp only [deleteCalls, recordsListed, scanRecords_append_none value _ _ h]
    exact ih

theorem DeleteRun.failure {cl : Client} {value : String} {es : List Event}
    {res : Option (Except Err Unit)} (hrun : DeleteRun cl value es res) :
    (∀ e, res = some (Except.error e) → ∃ ev ∈ es, ev.recordCallFailed = true) ∧
      (res = some (Except.ok ()) → ∀ ev ∈ es, ev.recordCallFailed = false) := by
  induction hrun with
  | outOfFuel => simp
  | listFailed req err => simp [Event.recordCallFailed]
  | deleted req body record h => simp [Event.recordCallFailed]
  | deleteFailed req body record err h => simp [Event.recordCallFailed]
  | lastPage req body h hstop => simp [Event.recordCallFailed]
  | nextPage req body es res h hgo rest ih =>
    refine ⟨fun e he => ?_, fun hok ev hev => ?_⟩
    · obtain ⟨ev, hev, hf⟩ := ih.1 e he
      exact ⟨ev, List.mem_cons_of_mem _ hev, hf⟩
    · rcases List.mem_cons.mp hev with rfl | hev
      · rfl
      · exact ih.2 hok ev hev

theorem deleteCalls_of_failed (es : List Event) :
    ∀ ev ∈ es, ev.recordCallFailed = true → ev.listFailed = true ∨ deleteCalls es ≠ [] := by
  induction es with
  | nil => simp
  | cons x rest ih =>
    intro ev hev hf
    rcases List.mem_cons.mp hev with rfl | hev
    · cases ev with
      | listRecords cl req res =>
        cases res with
        | error e => left; rfl
        | ok b => simp [Event.recordCallFailed] at hf
      | deleteRecord cl req err => right; simp [deleteCalls]
      | secretsGet ns name res => simp [Event.recordCallFailed] at hf
      | newCredential cfg err => simp [Event.recordCallFailed] at hf
      | newClient cfg err => simp [Event.recordCallFailed] at hf
      | listSites cl req res => simp [Event.recordCallFailed] at hf
      | createRecord cl req err => simp [Event.recordCallFailed] at hf
    · rcases ih ev hev hf with h | h
      · exact Or.inl h
      · right
        cases x <;> simp [deleteCalls, h]

/-! ### What a run of the site loop returns -/

theorem SiteRun.nil_result {cl : Client} {domain : String} {res : Option (Except Err Int)}
    (hrun : SiteRun cl domain [] res) : res = none := by
  cases hrun
  rfl

theorem enumerationEnded_iff (es : List Event) :
    enumerationEnded es ↔ ∃ e, es.getLast? = some e ∧ e.pageGoesOn = false := by
  unfold enumerationEnded
  cases es.getLast? with
  | none => simp
  | some e => simp

theorem SiteRun.result {cl : Client} {domain : String} {es : List Event}
    {res : Option (Except Err Int)} (hrun : SiteRun cl domain es res) :
    (∀ id, scanSites (UnFqdn domain) (sitesListed es) = some id → res = some (Except.ok id)) ∧
      (scanSites (UnFqdn domain) (sitesListed es) = none → (∀ e ∈ es, e.listFailed = false) →
        enumerationEnded es → res = some (Except.error (Err.siteNotFound domain))) := by
  induction hrun with
  | outOfFuel => simp [sitesListed, scanSites, enumerationEnded_iff]
  | listFailed req err => simp [sitesListed, scanSites, Event.listFailed]
  | found req body id h => simp [sitesListed, h]
  | lastPage req body h hstop => simp [sitesListed, h]
  | nextPage req body es res h hgo rest ih =>
    simp only [sitesListed, scanSites_append_none _ _ _ h]
    refine ⟨ih.1, fun hnone hok hend => ?_⟩
    cases es with
    | nil =>
      obtain ⟨e, he, hoff⟩ := (enumerationEnded_iff _).mp hend
      simp only [List.getLast?_singleton, Option.some.injEq] at he
      subst he
      simp [Event.pageGoesOn, hgo] at hoff
    | cons x xs =>
      refine ih.2 hnone (fun e he => hok e (List.mem_cons_of_mem _ he)) ?_
      obtain ⟨e, he, hoff⟩ := (enumerationEnded_iff _).mp hend
      exact (enumerationEnded_iff _).mpr
        ⟨e, by simpa [List.getLast?_cons_cons] using he, hoff⟩

theorem SiteRun.goesOn {cl : Client} {domain : String} {es : List Event}
    {res : Option (Except Err Int)} (hrun : SiteRun cl domain es res) :
    ∀ e ∈ es.dropLast, e.pageGoesOn = true := by
  induction hrun with
  | outOfFuel => simp
  | listFailed req err => simp
  | found req body id h => simp
  | lastPage req body h hstop => simp
  | nextPage req body es res h hgo rest ih =>
    cases es with
    | nil => simp
    | cons x xs =>
      intro e he
      simp only [List.dropLast_cons₂, List.mem_cons] at he
      rcases he with rfl | he
      · simpa [Event.pageGoesOn] using hgo
      · exact ih e he

/-! ### Pagination against a provider that echoes the page number -/

theorem wrap32_of_range (x : Int) (hlo : -2147483648 ≤ x) (hhi : x ≤ 2147483647) :
    wrap32 x = x := by
  unfold wrap32
  omega

theorem lt_ceilDiv_of_mul_lt (k ps tc : Int) (hps : 0 < ps) (h : k * ps < tc) :
    k + 1 ≤ ceilDiv tc ps := by
  unfold ceilDiv
  rw [Int.le_ediv_iff_mul_le hps]
  have : (k + 1) * ps = k * ps + ps := by ring
  omega

theorem getSiteIdLoop_bounded {σ : Type} (env : Env σ) (cl : Client) (domain : String)
    (ps tc : Int) (hps : 0 < ps) (hps32 : ps ≤ 2147483647)
    (hfit : ceilDiv tc ps * ps ≤ 2147483647)
    (hecho : ∀ s c req, ∃ sites, (env.listSites s c req).1
      = Except.ok ⟨sites, some req.PageNumber, some ps, some tc⟩) :
    ∀ (fuel : Nat) (w : World σ) (req : ListSitesRequest),
      1 ≤ req.PageNumber → req.PageNumber ≤ max 1 (ceilDiv tc ps) →
      ∃ es, (getSiteIdLoop env cl domain fuel w req).2.log = w.log ++ es ∧
        ((listSitesCalls es).length : Int) ≤ max 1 (ceilDiv tc ps) - req.PageNumber + 1 ∧
        (max 1 (ceilDiv tc ps) - req.PageNumber + 1 ≤ (fuel : Int) →
          (getSiteIdLoop env cl domain fuel w req).1 ≠ none) := by
  intro fuel
  induction fuel with
  | zero =>
    intro w req h1 hN
    refine ⟨[], by simp [getSiteIdLoop], ?_, ?_⟩
    · simp only [listSitesCalls, List.length_nil]; omega
    · intro h; simp at h; omega
  | succ n ih =>
    intro w req h1 hN
    obtain ⟨sites, hr⟩ := hecho w.st cl req
    simp only [getSiteIdLoop, callListSites, hr]
    cases hs : scanSites (UnFqdn domain) sites with
    | some id =>
      refine ⟨[Event.listSites cl req (Except.ok ⟨sites, some req.PageNumber, some ps, some tc⟩)],
        rfl, ?_, by simp⟩
      simp only [listSitesCalls, List.length_cons, List.length_nil]; omega
    | none =>
      simp only []
      by_cases hge : mul32 req.PageNumber ps ≥ tc
      · rw [if_pos hge]
        refine ⟨[Event.listSites cl req
          (Except.ok ⟨sites, some req.PageNumber, some ps, some tc⟩)], rfl, ?_, by simp⟩
        simp only [listSitesCalls, List.length_cons, List.length_nil]; omega
      · rw [if_neg hge]
        have hbound : max 1 (ceilDiv tc ps) * ps ≤ 2147483647 := by
          rcases le_total (ceilDiv tc ps) 1 with h | h
          · rw [max_eq_left h]; omega
          · rw [max_eq_right h]; exact hfit
        have hk : req.PageNumber * ps ≤ 2147483647 :=
          le_trans (Int.mul_le_mul_of_nonneg_right hN (le_of_lt hps)) hbound
        have hk0 : 0 ≤ req.PageNumber * ps := Int.mul_nonneg (by omega) (le_of_lt hps)
        have hmul : mul32 req.PageNumber ps = req.PageNumber * ps :=
          wrap32_of_range _ (by omega) hk
        rw [hmul] at hge
        have hnext : req.PageNumber + 1 ≤ ceilDiv tc ps :=
          lt_ceilDiv_of_mul_lt _ _ _ hps (by omega)
        have hle : req.PageNumber + 1 ≤ (req.PageNumber + 1) * ps := by
          have := Int.mul_le_mul_of_nonneg_left (show (1 : Int) ≤ ps by omega)
            (show (0 : Int) ≤ req.PageNumber + 1 by omega)
          simpa using this
        have hfit2 : (req.PageNumber + 1) * ps ≤ 2147483647 :=
          le_trans (Int.mul_le_mul_of_nonneg_right hnext (le_of_lt hps)) hfit
        have hadd : add32 req.PageNumber 1 = req.PageNumber + 1 :=
          wrap32_of_range _ (by omega) (le_trans hle hfit2)
        rw [hadd]
        have hmax : req.PageNumber + 1 ≤ max 1 (ceilDiv tc ps) := le_trans hnext (le_max_right _ _)
        obtain ⟨es, hlog, hlen, hterm⟩ := ih
          ⟨(env.listSites w.st cl req).2, w.log ++ [Event.listSites cl req
            (Except.ok ⟨sites, some req.PageNumber, some ps, some tc⟩)]⟩
          { req with PageNumber := req.PageNumber + 1 } (by simp only []; omega) hmax
        refine ⟨Event.listSites cl req
          (Except.ok ⟨sites, some req.PageNumber, some ps, some tc⟩) :: es, ?_, ?_, ?_⟩
        · rw [hlog]; simp
        · simp only [listSitesCalls, List.length_cons]
          simp only [] at hlen
          push_cast
          omega
        · intro hf
          apply hterm
          simp only []
          push_cast at hf
          omega

/-! ### Reading a log piece by piece -/

theorem issued_append {σ : Type} (w w1 w2 : World σ) (h1 : w1.log = w.log ++ issued w w1)
    (h2 : w2.log = w1.log ++ issued w1 w2) : issued w w2 = issued w w1 ++ issued w1 w2 := by
  apply issued_of_log_eq
  rw [h2, h1, List.append_assoc]

theorem createCalls_append (a b : List Event) :
    createCalls (a ++ b) = createCalls a ++ createCalls b := by
  induction a with
  | nil => rfl
  | cons x rest ih => cases x <;> simp [createCalls, ih]

theorem clientsBuilt_append (a b : List Event) :
    clientsBuilt (a ++ b) = clientsBuilt a ++ clientsBuilt b := by
  induction a with
  | nil => rfl
  | cons x rest ih => cases x <;> simp [clientsBuilt, ih]

theorem secretLookups_append (a b : List Event) :
    secretLookups (a ++ b) = secretLookups a ++ secretLookups b := by
  induction a with
  | nil => rfl
  | cons x rest ih => cases x <;> simp [secretLookups, ih]

theorem readers_of_remote (es : List Event) (h : ∀ e ∈ es, e.client ≠ none) :
    secretLookups es = [] ∧ clientsBuilt es = [] := by
  induction es with
  | nil => exact ⟨rfl, rfl⟩
  | cons x rest ih =>
    have hx := h x (List.mem_cons_self _ _)
    have ih2 := ih (fun e he => h e (List.mem_cons_of_mem _ he))
    cases x <;> simp_all [secretLookups, clientsBuilt, Event.client]

theorem createCalls_of_setup (es : List Event) (h : ∀ e ∈ es, e.client = none) :
    createCalls es = [] := by
  induction es with
  | nil => rfl
  | cons x rest ih =>
    have hx := h x (List.mem_cons_self _ _)
    have ih2 := ih (fun e he => h e (List.mem_cons_of_mem _ he))
    cases x <;> simp_all [createCalls, Event.client]

theorem SiteRun.remoteOnly {cl : Client} {domain : String} {es : List Event}
    {res : Option (Except Err Int)} (hrun : SiteRun cl domain es res) :
    createCalls es = [] ∧ ∀ e ∈ es, e.client = some cl := by
  induction hrun with
  | outOfFuel => simp [createCalls]
  | listFailed req err => simp [createCalls, Event.client]
  | found req body id h => simp [createCalls, Event.client]
  | lastPage req body h hstop => simp [createCalls, Event.client]
  | nextPage req body es res h hgo rest ih =>
    refine ⟨by simpa [createCalls] using ih.1, fun e he => ?_⟩
    rcases List.mem_cons.mp he with rfl | he
    · rfl
    · exact ih.2 e he

theorem DeleteRun.remoteCalls {cl : Client} {value : String} {es : List Event}
    {res : Option (Except Err Unit)} (hrun : DeleteRun cl value es res) :
    createCalls es = [] ∧ ∀ e ∈ es, e.client = some cl := by
  induction hrun with
  | outOfFuel => simp [createCalls]
  | listFailed req err => simp [createCalls, Event.client]
  | deleted req body record h => simp [createCalls, Event.client]
  | deleteFailed req body record err h => simp [createCalls, Event.client]
  | lastPage req body h hstop => simp [createCalls, Event.client]
  | nextPage req body es res h hgo rest ih =>
    refine ⟨by simpa [createCalls] using ih.1, fun e he => ?_⟩
    rcases List.mem_cons.mp he with rfl | he
    · rfl
    · exact ih.2 e he

/-! ### Secrets and the client -/

theorem loadSecretData_log {σ : Type} (env : Env σ) (w : World σ) (selector : SecretKeySelector)
    (ns : String) :
    (loadSecretData env w selector ns).2.log
      = w.log ++ [Event.secretsGet ns selector.Name (env.secretsGet w.st ns selector.Name).1] := by
  simp only [loadSecretData, callSecretsGet]
  cases (env.secretsGet w.st ns selector.Name).1 with
  | error err => rfl
  | ok secret =>
    simp only []
    cases secret.Data.lookup selector.Key <;> rfl

theorem loadSecretData_event {σ : Type} (env : Env σ) (w : World σ) (selector : SecretKeySelector)
    (ns : String) :
    ∃ e, (loadSecretData env w selector ns).2.log = w.log ++ [e] ∧ e.client = none ∧
      clientsBuilt [e] = [] ∧ secretLookups [e] = [(ns, selector.Name)] :=
  ⟨_, loadSecretData_log env w selector ns, rfl, rfl, rfl⟩

theorem buildClient_log {σ : Type} (env : Env σ) (w : World σ) (c : alicloudESAProviderSolver)
    (cfg : alicloudESAProviderConfig) (ns endpoint : String) :
    ∃ es, (buildClient env w c cfg ns endpoint).2.2.log = w.log ++ es ∧
      (∀ e ∈ es, e.client = none) ∧
      (∀ o ∈ clientsBuilt es, o.RegionId = cfg.RegionId ∧ o.Endpoint = endpoint) := by
  simp only [buildClient]
  obtain ⟨e1, l1, c1, b1, -⟩ := loadSecretData_event env w cfg.AccessKeyId ns
  obtain ⟨e2, l2, c2, b2, -⟩ := loadSecretData_event env
    (loadSecretData env w cfg.AccessKeyId ns).2 cfg.AccessKeySecret ns
  rw [l1] at l2
  have hb12 : ∀ rest, clientsBuilt (e1 :: e2 :: rest) = clientsBuilt rest := by
    intro rest
    have h := clientsBuilt_append [e1] (e2 :: rest)
    have h2 := clientsBuilt_append [e2] rest
    simp only [List.cons_append, List.nil_append, b1, b2] at h h2
    rw [h, h2]
  cases h1 : (loadSecretData env w cfg.AccessKeyId ns).1 with
  | error e =>
    refine ⟨[e1], l1, ?_, ?_⟩
    · intro e he
      rw [List.mem_singleton.mp he]; exact c1
    · simp [b1]
  | ok accessKeyId =>
    simp only []
    cases h2 : (loadSecretData env (loadSecretData env w cfg.AccessKeyId ns).2
        cfg.AccessKeySecret ns).1 with
    | error e =>
      refine ⟨[e1, e2], ?_, ?_, ?_⟩
      · simp only []; rw [l2]; simp
      · intro e he
        simp only [List.mem_cons, List.mem_singleton, List.not_mem_nil, or_false] at he
        rcases he with rfl | rfl
        · exact c1
        · exact c2
      · simp [hb12, clientsBuilt]
    | ok accessKeySecret =>
      simp only [callNewCredential, callNewClient]
      cases h3 : env.newCredential ⟨"access_key", accessKeyId, accessKeySecret⟩ with
      | some err =>
        refine ⟨[e1, e2, Event.newCredential ⟨"access_key", accessKeyId, accessKeySecret⟩
          (some err)], ?_, ?_, ?_⟩
        · simp only []; rw [l2]; simp
        · intro e he
          simp only [List.mem_cons, List.mem_singleton, List.not_mem_nil, or_false] at he
          rcases he with rfl | rfl | rfl
          · exact c1
          · exact c2
          · rfl
        · simp [hb12, clientsBuilt]
      | none =>
        simp only []
        cases h4 : env.newClient
            ⟨⟨"access_key", accessKeyId, accessKeySecret⟩, cfg.RegionId, endpoint⟩ with
        | some err =>
          refine ⟨[e1, e2, Event.newCredential ⟨"access_key", accessKeyId, accessKeySecret⟩ none,
            Event.newClient ⟨⟨"access_key", accessKeyId, accessKeySecret⟩, cfg.RegionId, endpoint⟩
              (some err)], ?_, ?_, ?_⟩
          · simp only []; rw [l2]; simp
          · intro e he
            simp only [List.mem_cons, List.mem_singleton, List.not_mem_nil, or_false] at he
            rcases he with rfl | rfl | rfl | rfl
            · exact c1
            · exact c2
            · rfl
            · rfl
          · simp [hb12, clientsBuilt]
        | none =>
          refine ⟨[e1, e2, Event.newCredential ⟨"access_key", accessKeyId, accessKeySecret⟩ none,
            Event.newClient ⟨⟨"access_key", accessKeyId, accessKeySecret⟩, cfg.RegionId, endpoint⟩
              none], ?_, ?_, ?_⟩
          · simp only []; rw [l2]; simp
          · intro e he
            simp only [List.mem_cons, List.mem_singleton, List.not_mem_nil, or_false] at he
            rcases he with rfl | rfl | rfl | rfl
            · exact c1
            · exact c2
            · rfl
            · rfl
          · simp [hb12, clientsBuilt]

theorem buildClient_built {σ : Type} (env : Env σ) (w : World σ) (c : alicloudESAProviderSolver)
    (cfg : alicloudESAProviderConfig) (ns endpoint : String) (id sec : Bytes)
    (h1 : (loadSecretData env w cfg.AccessKeyId ns).1 = Except.ok id)
    (h2 : (loadSecretData env (loadSecretData env w cfg.AccessKeyId ns).2
      cfg.AccessKeySecret ns).1 = Except.ok sec)
    (h3 : env.newCredential ⟨"access_key", id, sec⟩ = none) :
    (buildClient env w c cfg ns endpoint).2.1
        = ⟨some ⟨⟨⟨"access_key", id, sec⟩, cfg.RegionId, endpoint⟩⟩⟩ ∧
      ((buildClient env w c cfg ns endpoint).1
          = Except.ok ⟨⟨⟨"access_key", id, sec⟩, cfg.RegionId, endpoint⟩⟩ ∨
        ∃ e, (buildClient env w c cfg ns endpoint).1 = Except.error e) ∧
      ∃ es, (buildClient env w c cfg ns endpoint).2.2.log = w.log ++ es ∧
        secretLookups es = [(ns, cfg.AccessKeyId.Name), (ns, cfg.AccessKeySecret.Name)] ∧
        clientsBuilt es = [⟨⟨"access_key", id, sec⟩, cfg.RegionId, endpoint⟩] := by
  obtain ⟨e1, l1, -, b1, s1⟩ := loadSecretData_event env w cfg.AccessKeyId ns
  obtain ⟨e2, l2, -, b2, s2⟩ := loadSecretData_event env
    (loadSecretData env w cfg.AccessKeyId ns).2 cfg.AccessKeySecret ns
  rw [l1] at l2
  have hb12 : ∀ rest, clientsBuilt (e1 :: e2 :: rest) = clientsBuilt rest := by
    intro rest
    have h := clientsBuilt_append [e1] (e2 :: rest)
    have h2 := clientsBuilt_append [e2] rest
    simp only [List.cons_append, List.nil_append, b1, b2] at h h2
    rw [h, h2]
  have hs12 : ∀ rest, secretLookups (e1 :: e2 :: rest)
      = (ns, cfg.AccessKeyId.Name) :: (ns, cfg.AccessKeySecret.Name) :: secretLookups rest := by
    intro rest
    have h := secretLookups_append [e1] (e2 :: rest)
    have h2 := secretLookups_append [e2] rest
    simp only [List.cons_append, List.nil_append, s1, s2] at h h2
    rw [h, h2]
  simp only [buildClient, h1, h2, callNewCredential, h3, callNewClient]
  cases h4 : env.newClient ⟨⟨"access_key", id, sec⟩, cfg.RegionId, endpoint⟩ with
  | some err =>
    refine ⟨rfl, Or.inr ⟨_, rfl⟩, [e1, e2, Event.newCredential ⟨"access_key", id, sec⟩ none,
      Event.newClient ⟨⟨"access_key", id, sec⟩, cfg.RegionId, endpoint⟩ (some err)], ?_, ?_, ?_⟩
    · simp only []; rw [l2]; simp
    · rw [hs12]; rfl
    · rw [hb12]; rfl
  | none =>
    refine ⟨rfl, Or.inl rfl, [e1, e2, Event.newCredential ⟨"access_key", id, sec⟩ none,
      Event.newClient ⟨⟨"access_key", id, sec⟩, cfg.RegionId, endpoint⟩ none], ?_, ?_, ?_⟩
    · simp only []; rw [l2]; simp
    · rw [hs12]; rfl
    · rw [hb12]; rfl

theorem buildClient_failed {σ : Type} (env : Env σ) (w : World σ)
    (c : alicloudESAProviderSolver) (cfg : alicloudESAProviderConfig) (ns endpoint : String)
    (hfail : (∃ e, (loadSecretData env w cfg.AccessKeyId ns).1 = Except.error e) ∨
      (∃ id e, (loadSecretData env w cfg.AccessKeyId ns).1 = Except.ok id ∧
        (loadSecretData env (loadSecretData env w cfg.AccessKeyId ns).2
          cfg.AccessKeySecret ns).1 = Except.error e) ∨
      (∃ id sec err, (loadSecretData env w cfg.AccessKeyId ns).1 = Except.ok id ∧
        (loadSecretData env (loadSecretData env w cfg.AccessKeyId ns).2
          cfg.AccessKeySecret ns).1 = Except.ok sec ∧
        env.newCredential ⟨"access_key", id, sec⟩ = some err)) :
    (∃ e, (buildClient env w c cfg ns endpoint).1 = Except.error e) ∧
      (buildClient env w c cfg ns endpoint).2.1 = c ∧
      clientsBuilt (issued w (buildClient env w c cfg ns endpoint).2.2) = [] := by
  obtain ⟨e1, l1, -, b1, -⟩ := loadSecretData_event env w cfg.AccessKeyId ns
  obtain ⟨e2, l2, -, b2, -⟩ := loadSecretData_event env
    (loadSecretData env w cfg.AccessKeyId ns).2 cfg.AccessKeySecret ns
  rw [l1] at l2
  have hb12 : ∀ rest, clientsBuilt (e1 :: e2 :: rest) = clientsBuilt rest := by
    intro rest
    have h := clientsBuilt_append [e1] (e2 :: rest)
    have h2 := clientsBuilt_append [e2] rest
    simp only [List.cons_append, List.nil_append, b1, b2] at h h2
    rw [h, h2]
  rcases hfail with ⟨e, h1⟩ | ⟨id, e, h1, h2⟩ | ⟨id, sec, err, h1, h2, h3⟩
  · simp only [buildClient, h1]
    refine ⟨⟨e, rfl⟩, trivial, ?_⟩
    rw [issued_of_log_eq _ _ [e1] l1]
    exact b1
  · simp only [buildClient, h1, h2]
    refine ⟨⟨e, rfl⟩, trivial, ?_⟩
    rw [issued_of_log_eq _ _ [e1, e2] (by rw [l2]; simp)]
    rw [hb12]; rfl
  · simp only [buildClient, h1, h2, callNewCredential, h3]
    refine ⟨⟨_, rfl⟩, trivial, ?_⟩
    rw [issued_of_log_eq _ _ [e1, e2, Event.newCredential ⟨"access_key", id, sec⟩ (some err)]
      (by simp only []; rw [l2]; simp)]
    rw [hb12]; rfl

theorem presentRecord_log {σ : Type} (env : Env σ) (fuel : Nat) (w : World σ)
    (c : alicloudESAProviderSolver) (cl : Client) (ch : ChallengeRequest) :
    (presentRecord env fuel w c cl ch).solver = c ∧
      ∃ es, (presentRecord env fuel w c cl ch).world.log = w.log ++ es ∧
        ∀ e ∈ es, e.client = some cl := by
  obtain ⟨hS, hSrun⟩ := getSiteId_run env fuel w cl ch.ResolvedZone
  simp only [presentRecord]
  cases hs : (getSiteId env fuel w cl ch.ResolvedZone).1 with
  | none => exact ⟨rfl, _, hS, hSrun.remoteOnly.2⟩
  | some r =>
    cases r with
    | error e => exact ⟨rfl, _, hS, hSrun.remoteOnly.2⟩
    | ok siteId =>
      simp only [createTxtRecord, callCreateRecord, extractRecordName]
      have hmem : ∀ err : Option String, ∀ e ∈ issued w (getSiteId env fuel w cl ch.ResolvedZone).2
          ++ [Event.createRecord cl ⟨siteId, "TXT", UnFqdn ch.ResolvedFQDN, ⟨ch.Key⟩, 300⟩ err],
          e.client = some cl := by
        intro err e he
        rcases List.mem_append.mp he with he | he
        · exact hSrun.remoteOnly.2 e he
        · rw [List.mem_singleton.mp he]; rfl
      cases hc : (env.createRecord (getSiteId env fuel w cl ch.ResolvedZone).2.st cl
          ⟨siteId, "TXT", UnFqdn ch.ResolvedFQDN, ⟨ch.Key⟩, 300⟩).1 with
      | some err =>
        refine ⟨rfl, _, ?_, hmem (some err)⟩
        simp only []; rw [hS, List.append_assoc]
      | none =>
        refine ⟨rfl, _, ?_, hmem none⟩
        simp only []; rw [hS, List.append_assoc]

theorem cleanUpRecord_log {σ : Type} (env : Env σ) (fuel : Nat) (w : World σ)
    (c : alicloudESAProviderSolver) (cl : Client) (ch : ChallengeRequest) :
    (cleanUpRecord env fuel w c cl ch).solver = c ∧
      ∃ es, (cleanUpRecord env fuel w c cl ch).world.log = w.log ++ es ∧
        ∀ e ∈ es, e.client = some cl := by
  obtain ⟨hS, hSrun⟩ := getSiteId_run env fuel w cl ch.ResolvedZone
  simp only [cleanUpRecord]
  cases hs : (getSiteId env fuel w cl ch.ResolvedZone).1 with
  | none => exact ⟨rfl, _, hS, hSrun.remoteOnly.2⟩
  | some r =>
    cases r with
    | error e => exact ⟨rfl, _, hS, hSrun.remoteOnly.2⟩
    | ok siteId =>
      simp only [extractRecordName]
      obtain ⟨hD, hDrun⟩ := deleteTxtRecord_run env fuel
        (getSiteId env fuel w cl ch.ResolvedZone).2 cl siteId (UnFqdn ch.ResolvedFQDN) ch.Key
      have hmem : ∀ e ∈ issued w (getSiteId env fuel w cl ch.ResolvedZone).2
          ++ issued (getSiteId env fuel w cl ch.ResolvedZone).2
            (deleteTxtRecord env fuel (getSiteId env fuel w cl ch.ResolvedZone).2 cl siteId
              (UnFqdn ch.ResolvedFQDN) ch.Key).2, e.client = some cl := by
        intro e he
        rcases List.mem_append.mp he with he | he
        · exact hSrun.remoteOnly.2 e he
        · exact hDrun.remoteCalls.2 e he
      have hlog : (deleteTxtRecord env fuel (getSiteId env fuel w cl ch.ResolvedZone).2 cl siteId
          (UnFqdn ch.ResolvedFQDN) ch.Key).2.log = w.log ++
          (issued w (getSiteId env fuel w cl ch.ResolvedZone).2
          ++ issued (getSiteId env fuel w cl ch.ResolvedZone).2
            (deleteTxtRecord env fuel (getSiteId env fuel w cl ch.ResolvedZone).2 cl siteId
              (UnFqdn ch.ResolvedFQDN) ch.Key).2) := by
        rw [← List.append_assoc, ← hS]; exact hD
      cases hd : (deleteTxtRecord env fuel (getSiteId env fuel w cl ch.ResolvedZone).2 cl siteId
          (UnFqdn ch.ResolvedFQDN) ch.Key).1 with
      | none => exact ⟨rfl, _, hlog, hmem⟩
      | some r =>
        cases r with
        | error e => exact ⟨rfl, _, hlog, hmem⟩
        | ok u => exact ⟨rfl, _, hlog, hmem⟩

/-! ### The loops against the store -/

theorem scanSites_append_some (target : String) (a b : List Site) (id : Int)
    (h : scanSites target a = some id) : scanSites target (a ++ b) = some id := by
  obtain ⟨pre, x, post, he, hpre, hn, hid⟩ := scanSites_some target a id h
  rw [he, List.append_assoc, List.cons_append]
  exact scanSites_first target pre (post ++ b) x id hpre hn hid

theorem scanRecords_append_some (value : String) (a b : List Record) (r : Record)
    (h : scanRecords value a = some r) : scanRecords value (a ++ b) = some r := by
  obtain ⟨pre, post, he, hpre, hr⟩ := scanRecords_some value a r h
  rw [he, List.append_assoc, List.cons_append]
  exact scanRecords_first value pre (post ++ b) r hpre hr

theorem pageOf_succ {α : Type} (xs : List α) (k : Nat) :
    pageOf xs ((k : Int) + 1) 100 = (xs.drop (k * 100)).take 100 := by
  unfold pageOf
  have h1 : (((k : Int) + 1 - 1) * 100).toNat = k * 100 := by omega
  have h2 : (100 : Int).toNat = 100 := rfl
  rw [h1, h2]

theorem drop_page_split {α : Type} (xs : List α) (k : Nat) :
    xs.drop (k * 100) = (xs.drop (k * 100)).take 100 ++ xs.drop ((k + 1) * 100) := by
  have h := (List.take_append_drop 100 (xs.drop (k * 100))).symm
  rw [List.drop_drop] at h
  have e : k * 100 + 100 = (k + 1) * 100 := by ring
  rw [e] at h
  exact h

theorem store_listSites (cfg : Decoder) (s : Store) (cl : Client)
    (req : ListSitesRequest) :
    (storeEnv cfg).listSites s cl req
      = (Except.ok
          { Sites := pageOf (s.sites.map StoreSite.listed) req.PageNumber req.PageSize,
            PageNumber := some req.PageNumber,
            PageSize := some req.PageSize,
            TotalCount := some (s.sites.length : Int) }, s) := rfl

theorem store_listRecords (cfg : Decoder) (s : Store) (cl : Client)
    (req : ListRecordsRequest) :
    (storeEnv cfg).listRecords s cl req
      = (Except.ok
          { Records := pageOf ((s.selected req).map StoreRecord.listed) req.PageNumber req.PageSize,
            PageNumber := some req.PageNumber,
            PageSize := some req.PageSize,
            TotalCount := some ((s.selected req).length : Int) }, s) := rfl

theorem store_getSiteIdLoop (cfg : Decoder) (cl : Client) (domain : String)
    (s : Store) (hlen : s.sites.length ≤ 2147483547) :
    ∀ (fuel k : Nat) (log : List Event), k * 100 ≤ s.sites.length →
      s.sites.length < (k + fuel) * 100 →
      (getSiteIdLoop (storeEnv cfg) cl domain fuel ⟨s, log⟩ ⟨(k : Int) + 1, 100⟩).1
          = some (siteResult domain ((s.sites.map StoreSite.listed).drop (k * 100))) ∧
        (getSiteIdLoop (storeEnv cfg) cl domain fuel ⟨s, log⟩ ⟨(k : Int) + 1, 100⟩).2.st = s := by
  intro fuel
  induction fuel with
  | zero => intro k log h1 h2; omega
  | succ n ih =>
    intro k log h1 h2
    have hsplit := drop_page_split (s.sites.map StoreSite.listed) k
    have hmul : mul32 ((k : Int) + 1) 100 = ((k : Int) + 1) * 100 :=
      wrap32_of_range _ (by omega) (by omega)
    have hadd : add32 ((k : Int) + 1) 1 = ((k + 1 : Nat) : Int) + 1 := by
      rw [show add32 ((k : Int) + 1) 1 = (k : Int) + 1 + 1 from
        wrap32_of_range _ (by omega) (by omega)]
      push_cast; ring
    simp only [getSiteIdLoop, callListSites, store_listSites, pageOf_succ, hmul, hadd]
    cases hs : scanSites (UnFqdn domain)
        (((s.sites.map StoreSite.listed).drop (k * 100)).take 100) with
    | some id =>
      have hres : siteResult domain ((s.sites.map StoreSite.listed).drop (k * 100))
          = Except.ok id := by
        rw [hsplit, siteResult, scanSites_append_some _ _ _ id hs]
      rw [hres]
      exact ⟨rfl, rfl⟩
    | none =>
      have hres : siteResult domain ((s.sites.map StoreSite.listed).drop (k * 100))
          = siteResult domain ((s.sites.map StoreSite.listed).drop ((k + 1) * 100)) := by
        rw [hsplit, siteResult, scanSites_append_none _ _ _ hs, siteResult]
      rw [hres]
      simp only []
      by_cases hge : ((k : Int) + 1) * 100 ≥ ((s.sites.length : Nat) : Int)
      · rw [if_pos hge]
        refine ⟨?_, rfl⟩
        simp only []
        rw [List.drop_eq_nil_of_le (by rw [List.length_map]; omega)]
        rfl
      · rw [if_neg hge]
        exact ih (k + 1) _ (by omega) (by omega)

theorem scanRecords_listed (value : String) (xs : List StoreRecord) (record : Record)
    (h : scanRecords value (xs.map StoreRecord.listed) = some record) :
    ∃ r ∈ xs, record = r.listed := by
  obtain ⟨pre, post, he, -, -⟩ := scanRecords_some value _ record h
  have hmem : record ∈ xs.map StoreRecord.listed := by
    rw [he]; simp
  obtain ⟨r, hr, hrl⟩ := List.mem_map.mp hmem
  exact ⟨r, hr, hrl.symm⟩

theorem store_deleteTxtRecordLoop (cfg : Decoder) (cl : Client)
    (value : String) (s : Store) (siteId : Int) (name : String)
    (hlen : (s.selected ⟨siteId, "TXT", name, 1, 100⟩).length ≤ 2147483547) :
    ∀ (fuel k : Nat) (log : List Event),
      k * 100 ≤ (s.selected ⟨siteId, "TXT", name, 1, 100⟩).length →
      (s.selected ⟨siteId, "TXT", name, 1, 100⟩).length < (k + fuel) * 100 →
      (deleteTxtRecordLoop (storeEnv cfg) cl value fuel ⟨s, log⟩
          ⟨siteId, "TXT", name, (k : Int) + 1, 100⟩).1 = some (Except.ok ()) ∧
        (deleteTxtRecordLoop (storeEnv cfg) cl value fuel ⟨s, log⟩
          ⟨siteId, "TXT", name, (k : Int) + 1, 100⟩).2.st
          = s.afterDelete (scanRecords value
              (((s.selected ⟨siteId, "TXT", name, 1, 100⟩).map StoreRecord.listed).drop
                (k * 100))) := by
  intro fuel
  induction fuel with
  | zero => intro k log h1 h2; omega
  | succ n ih =>
    intro k log h1 h2
    have hsel : ∀ pn : Int, s.selected ⟨siteId, "TXT", name, pn, 100⟩
        = s.selected ⟨siteId, "TXT", name, 1, 100⟩ := fun _ => rfl
    have hsplit := drop_page_split
      ((s.selected ⟨siteId, "TXT", name, 1, 100⟩).map StoreRecord.listed) k
    have hmul : mul32 ((k : Int) + 1) 100 = ((k : Int) + 1) * 100 :=
      wrap32_of_range _ (by omega) (by omega)
    have hadd : add32 ((k : Int) + 1) 1 = ((k + 1 : Nat) : Int) + 1 := by
      rw [show add32 ((k : Int) + 1) 1 = (k : Int) + 1 + 1 from
        wrap32_of_range _ (by omega) (by omega)]
      push_cast; ring
    simp only [deleteTxtRecordLoop, callListRecords, store_listRecords, hsel, pageOf_succ,
      hmul, hadd]
    cases hs : scanRecords value
        ((((s.selected ⟨siteId, "TXT", name, 1, 100⟩).map StoreRecord.listed).drop
          (k * 100)).take 100) with
    | some record =>
      have hres : scanRecords value
          (((s.selected ⟨siteId, "TXT", name, 1, 100⟩).map StoreRecord.listed).drop (k * 100))
          = some record := by
        rw [hsplit, scanRecords_append_some _ _ _ record hs]
      rw [hres]
      have hrec : ∃ r : StoreRecord, record = r.listed := by
        have hs2 := hs
        rw [← List.map_drop, ← List.map_take] at hs2
        obtain ⟨r, -, hr⟩ := scanRecords_listed value _ record hs2
        exact ⟨r, hr⟩
      obtain ⟨r, rfl⟩ := hrec
      exact ⟨rfl, rfl⟩
    | none =>
      have hres : scanRecords value
          (((s.selected ⟨siteId, "TXT", name, 1, 100⟩).map StoreRecord.listed).drop (k * 100))
          = scanRecords value
            (((s.selected ⟨siteId, "TXT", name, 1, 100⟩).map StoreRecord.listed).drop
              ((k + 1) * 100)) := by
        rw [hsplit, scanRecords_append_none _ _ _ hs]
      rw [hres]
      simp only []
      by_cases hge : ((k : Int) + 1) * 100
          ≥ (((s.selected ⟨siteId, "TXT", name, 1, 100⟩).length : Nat) : Int)
      · rw [if_pos hge]
        refine ⟨rfl, ?_⟩
        simp only []
        rw [List.drop_eq_nil_of_le (by rw [List.length_map]; omega)]
        rfl
      · rw [if_neg hge]
        exact ih (k + 1) _ (by omega) (by omega)

theorem store_getSiteId (cfg : Decoder) (cl : Client) (domain : String)
    (fuel : Nat) (w : World Store) (hlen : w.st.sites.length ≤ 2147483547)
    (hfuel : w.st.sites.length < fuel * 100) :
    (getSiteId (storeEnv cfg) fuel w cl domain).1
        = some (siteResult domain (w.st.sites.map StoreSite.listed)) ∧
      (getSiteId (storeEnv cfg) fuel w cl domain).2.st = w.st := by
  have h := store_getSiteIdLoop cfg cl domain w.st hlen fuel 0 w.log (by omega) (by omega)
  simpa [getSiteId] using h

theorem store_deleteTxtRecord (cfg : Decoder) (cl : Client) (value : String)
    (fuel : Nat) (w : World Store) (siteId : Int) (name : String)
    (hlen : (w.st.selected ⟨siteId, "TXT", name, 1, 100⟩).length ≤ 2147483547)
    (hfuel : (w.st.selected ⟨siteId, "TXT", name, 1, 100⟩).length < fuel * 100) :
    (deleteTxtRecord (storeEnv cfg) fuel w cl siteId name value).1 = some (Except.ok ()) ∧
      (deleteTxtRecord (storeEnv cfg) fuel w cl siteId name value).2.st
        = w.st.afterDelete (scanRecords value
            ((w.st.selected ⟨siteId, "TXT", name, 1, 100⟩).map StoreRecord.listed)) := by
  have h := store_deleteTxtRecordLoop cfg cl value w.st siteId name hlen fuel 0 w.log
    (by omega) (by omega)
  simpa [deleteTxtRecord] using h

theorem scanSites_store (target : String) (sites : List StoreSite) :
    scanSites target (sites.map StoreSite.listed)
      = (sites.find? (fun x => decide (x.SiteName = target))).map StoreSite.SiteId := by
  induction sites with
  | nil => rfl
  | cons x rest ih =>
    by_cases hx : x.SiteName = target
    · simp [scanSites, StoreSite.listed, hx]
    · simp [scanSites, StoreSite.listed, hx, ih]

theorem scanRecords_store (s : Store) (siteId : Int) (name value : String) :
    scanRecords value ((s.selected ⟨siteId, "TXT", name, 1, 100⟩).map StoreRecord.listed)
      = (s.records.find? (fun r =>
          decide (r.SiteId = siteId) && decide (r.Typ = "TXT") && decide (r.RecordName = name)
            && decide (r.Value = value))).map StoreRecord.listed := by
  unfold Store.selected
  induction s.records with
  | nil => rfl
  | cons x rest ih =>
    by_cases hp : (decide (x.SiteId = siteId) && decide (x.Typ = "TXT")
        && decide (x.RecordName = name)) = true
    · by_cases hv : x.Value = value
      · simp only [] at hp
        simp [List.filter_cons, hp, scanRecords, recordMatches, StoreRecord.listed, hv]
      · simp only [] at hp
        simp only [] at ih
        simp [List.filter_cons, hp, scanRecords, recordMatches, StoreRecord.listed, hv, ih]
    · simp only [] at hp ih
      simp [List.filter_cons, hp, ih]

theorem length_after_delete (q : StoreRecord → Bool) (xs : List StoreRecord) (r0 : StoreRecord)
    (hnodup : (xs.map StoreRecord.RecordId).Nodup) (hfind : xs.find? q = some r0) :
    ((xs.filter (fun r => decide (r.RecordId ≠ r0.RecordId))).filter q).length + 1
      = (xs.filter q).length := by
  induction xs with
  | nil => simp at hfind
  | cons x rest ih =>
    simp only [List.map_cons, List.nodup_cons] at hnodup
    obtain ⟨hx, hrest⟩ := hnodup
    by_cases hq : q x = true
    · simp only [List.find?_cons, hq, Option.some.injEq] at hfind
      subst hfind
      have hall : rest.filter (fun r => decide (r.RecordId ≠ x.RecordId)) = rest := by
        apply List.filter_eq_self.mpr
        intro r hr
        simp only [ne_eq, decide_not, Bool.not_eq_eq_eq_not, Bool.not_true, decide_eq_false_iff_not]
        intro he
        exact hx (he ▸ List.mem_map_of_mem _ hr)
      have hd : ¬ (decide (x.RecordId ≠ x.RecordId) = true) := by simp
      rw [List.filter_cons, if_neg hd, hall, List.filter_cons, if_pos hq, List.length_cons]
    · simp only [List.find?_cons, hq] at hfind
      have hmem : r0 ∈ rest := List.mem_of_find?_eq_some hfind
      have hne : x.RecordId ≠ r0.RecordId := by
        intro he
        exact hx (he ▸ List.mem_map_of_mem _ hmem)
      have hd : decide (x.RecordId ≠ r0.RecordId) = true := by simpa using hne
      rw [List.filter_cons, if_pos hd, List.filter_cons, if_neg hq, List.filter_cons, if_neg hq]
      exact ih hrest hfind

theorem endpoint_ne_empty (region : String) : "esa." ++ region ++ ".aliyuncs.com" ≠ "" := by
  intro h
  have hl := congrArg String.length h
  simp only [String.length_append] at hl
  have h4 : "esa.".length = 4 := by decide
  have h0 : "".length = 0 := by decide
  omega

theorem store_loadSecretData (cfg0 : Decoder) (w : World Store)
    (selector : SecretKeySelector) (ns : String) (b : Bytes)
    (h : w.st.secretData selector ns = some b) :
    (loadSecretData (storeEnv cfg0) w selector ns).1 = Except.ok b ∧
      (loadSecretData (storeEnv cfg0) w selector ns).2.st = w.st := by
  unfold Store.secretData at h
  simp only [loadSecretData, callSecretsGet, storeEnv]
  cases hl : w.st.secrets.lookup (ns, selector.Name) with
  | none => simp [hl] at h
  | some secret =>
    simp only [hl] at h
    simp only [h]
    exact ⟨by first | rfl | trivial, by first | rfl | trivial⟩

theorem store_buildClient (cfg0 : Decoder) (w : World Store)
    (c : alicloudESAProviderSolver) (cfg : alicloudESAProviderConfig) (ns endpoint : String)
    (id sec : Bytes) (h1 : w.st.secretData cfg.AccessKeyId ns = some id)
    (h2 : w.st.secretData cfg.AccessKeySecret ns = some sec)
    (hidne : id ≠ []) (hsecne : sec ≠ []) (hep : endpoint ≠ "") :
    (buildClient (storeEnv cfg0) w c cfg ns endpoint).1
        = Except.ok ⟨⟨⟨"access_key", id, sec⟩, cfg.RegionId, endpoint⟩⟩ ∧
      (buildClient (storeEnv cfg0) w c cfg ns endpoint).2.1
        = ⟨some ⟨⟨⟨"access_key", id, sec⟩, cfg.RegionId, endpoint⟩⟩⟩ ∧
      (buildClient (storeEnv cfg0) w c cfg ns endpoint).2.2.st = w.st := by
  obtain ⟨l1, s1⟩ := store_loadSecretData cfg0 w cfg.AccessKeyId ns id h1
  obtain ⟨l2, s2⟩ := store_loadSecretData cfg0
    (loadSecretData (storeEnv cfg0) w cfg.AccessKeyId ns).2 cfg.AccessKeySecret ns sec
    (by rw [s1]; exact h2)
  have hcred : (storeEnv cfg0).newCredential ⟨"access_key", id, sec⟩ = none := by
    simp [storeEnv, checkAccessKey, hidne, hsecne]
  have hclient : (storeEnv cfg0).newClient ⟨⟨"access_key", id, sec⟩, cfg.RegionId, endpoint⟩
      = none := by
    simp [storeEnv, checkEndpoint, hep]
  simp only [buildClient, l1, l2, callNewCredential, callNewClient, hcred, hclient]
  exact ⟨by first | rfl | trivial, by first | rfl | trivial, by rw [s2, s1]⟩

theorem store_presentRecord (cfg0 : Decoder) (fuel : Nat) (w : World Store)
    (c : alicloudESAProviderSolver) (cl : Client) (ch : ChallengeRequest) (site : StoreSite)
    (hsite : w.st.sites.find? (fun x => decide (x.SiteName = UnFqdn ch.ResolvedZone)) = some site)
    (hlen : w.st.sites.length ≤ 2147483547) (hfuel : w.st.sites.length < fuel * 100) :
    (presentRecord (storeEnv cfg0) fuel w c cl ch).result = some (Except.ok ()) ∧
      (presentRecord (storeEnv cfg0) fuel w c cl ch).solver = c ∧
      (presentRecord (storeEnv cfg0) fuel w c cl ch).world.st
        = w.st.withTxtRecord site.SiteId (UnFqdn ch.ResolvedFQDN) ch.Key := by
  obtain ⟨hres, hst⟩ := store_getSiteId cfg0 cl ch.ResolvedZone fuel w hlen hfuel
  have hsr : siteResult ch.ResolvedZone (w.st.sites.map StoreSite.listed)
      = Except.ok site.SiteId := by
    rw [siteResult, scanSites_store, hsite]
    rfl
  rw [hsr] at hres
  have hcreate : ∀ (s : Store) (x : Client) (req : CreateRecordRequest),
      (storeEnv cfg0).createRecord s x req
        = (none, { s with
            records := s.records ++
              [{ RecordId := s.nextId, SiteId := req.SiteId, Typ := req.Typ,
                 RecordName := req.RecordName, Value := req.Data.Value, Ttl := req.Ttl }],
            nextId := s.nextId + 1 }) := fun _ _ _ => rfl
  simp only [presentRecord, hres, createTxtRecord, callCreateRecord, extractRecordName,
    hcreate, hst]
  exact ⟨trivial, trivial, rfl⟩

theorem store_cleanUpRecord (cfg0 : Decoder) (fuel : Nat) (w : World Store)
    (c : alicloudESAProviderSolver) (cl : Client) (ch : ChallengeRequest) (site : StoreSite)
    (hsite : w.st.sites.find? (fun x => decide (x.SiteName = UnFqdn ch.ResolvedZone)) = some site)
    (hlen : w.st.sites.length ≤ 2147483547) (hfuel : w.st.sites.length < fuel * 100)
    (hrecs : w.st.records.length ≤ 2147483547) (hfuel2 : w.st.records.length < fuel * 100) :
    (cleanUpRecord (storeEnv cfg0) fuel w c cl ch).result = some (Except.ok ()) ∧
      (cleanUpRecord (storeEnv cfg0) fuel w c cl ch).solver = c ∧
      (cleanUpRecord (storeEnv cfg0) fuel w c cl ch).world.st
        = w.st.afterDelete (scanRecords ch.Key
            ((w.st.selected ⟨site.SiteId, "TXT", UnFqdn ch.ResolvedFQDN, 1, 100⟩).map
              StoreRecord.listed)) := by
  obtain ⟨hres, hst⟩ := store_getSiteId cfg0 cl ch.ResolvedZone fuel w hlen hfuel
  have hsr : siteResult ch.ResolvedZone (w.st.sites.map StoreSite.listed)
      = Except.ok site.SiteId := by
    rw [siteResult, scanSites_store, hsite]
    rfl
  rw [hsr] at hres
  have hsel : ∀ s : Store, (s.selected ⟨site.SiteId, "TXT", UnFqdn ch.ResolvedFQDN, 1, 100⟩).length
      ≤ s.records.length := fun s => List.length_filter_le _ _
  obtain ⟨hd, hdst⟩ := store_deleteTxtRecord cfg0 cl ch.Key fuel
    (getSiteId (storeEnv cfg0) fuel w cl ch.ResolvedZone).2 site.SiteId (UnFqdn ch.ResolvedFQDN)
    (by rw [hst]; exact le_trans (hsel _) hrecs)
    (by rw [hst]; exact lt_of_le_of_lt (hsel _) hfuel2)
  simp only [cleanUpRecord, hres, extractRecordName, hd]
  exact ⟨trivial, trivial, by rw [hdst, hst]⟩

theorem store_Present (cfg0 : Decoder) (fuel : Nat) (w : World Store)
    (c : alicloudESAProviderSolver) (ch : ChallengeRequest) (cfg : alicloudESAProviderConfig)
    (site : StoreSite) (id sec : Bytes)
    (hcfg : loadConfig (storeEnv cfg0) ch.Config = (cfg, none))
    (hid : w.st.secretData cfg.AccessKeyId ch.ResourceNamespace = some id)
    (hsec : w.st.secretData cfg.AccessKeySecret ch.ResourceNamespace = some sec)
    (hidne : id ≠ []) (hsecne : sec ≠ [])
    (hsite : w.st.sites.find? (fun x => decide (x.SiteName = UnFqdn ch.ResolvedZone)) = some site)
    (hlen : w.st.sites.length ≤ 2147483547) (hfuel : w.st.sites.length < fuel * 100) :
    (Present (storeEnv cfg0) fuel w c ch).result = some (Except.ok ()) ∧
      (Present (storeEnv cfg0) fuel w c ch).solver.esaClient ≠ none ∧
      (Present (storeEnv cfg0) fuel w c ch).world.st
        = w.st.withTxtRecord site.SiteId (UnFqdn ch.ResolvedFQDN) ch.Key := by
  obtain ⟨hb, hbs, hbst⟩ := store_buildClient cfg0 w c cfg ch.ResourceNamespace
    ("esa." ++ cfg.RegionId ++ ".aliyuncs.com") id sec hid hsec hidne hsecne
    (endpoint_ne_empty cfg.RegionId)
  obtain ⟨hr, hs, hst⟩ := store_presentRecord cfg0 fuel
    (buildClient (storeEnv cfg0) w c cfg ch.ResourceNamespace
      ("esa." ++ cfg.RegionId ++ ".aliyuncs.com")).2.2
    (buildClient (storeEnv cfg0) w c cfg ch.ResourceNamespace
      ("esa." ++ cfg.RegionId ++ ".aliyuncs.com")).2.1
    ⟨⟨⟨"access_key", id, sec⟩, cfg.RegionId, "esa." ++ cfg.RegionId ++ ".aliyuncs.com"⟩⟩
    ch site (by rw [hbst]; exact hsite) (by rw [hbst]; exact hlen) (by rw [hbst]; exact hfuel)
  have hrun : Present (storeEnv cfg0) fuel w c ch
      = presentRecord (storeEnv cfg0) fuel
        (buildClient (storeEnv cfg0) w c cfg ch.ResourceNamespace
          ("esa." ++ cfg.RegionId ++ ".aliyuncs.com")).2.2
        (buildClient (storeEnv cfg0) w c cfg ch.ResourceNamespace
          ("esa." ++ cfg.RegionId ++ ".aliyuncs.com")).2.1
        ⟨⟨⟨"access_key", id, sec⟩, cfg.RegionId, "esa." ++ cfg.RegionId ++ ".aliyuncs.com"⟩⟩
        ch := by
    simp only [Present, hcfg, hb]
  rw [hrun, hr, hs, hst, hbs, hbst]
  exact ⟨rfl, by simp, rfl⟩

theorem store_CleanUp (cfg0 : Decoder) (fuel : Nat) (w : World Store)
    (c : alicloudESAProviderSolver) (ch : ChallengeRequest) (cfg : alicloudESAProviderConfig)
    (site : StoreSite)
    (hcfg : loadConfig (storeEnv cfg0) ch.Config = (cfg, none))
    (hc : c.esaClient ≠ none)
    (hsite : w.st.sites.find? (fun x => decide (x.SiteName = UnFqdn ch.ResolvedZone)) = some site)
    (hlen : w.st.sites.length ≤ 2147483547) (hfuel : w.st.sites.length < fuel * 100)
    (hrecs : w.st.records.length ≤ 2147483547) (hfuel2 : w.st.records.length < fuel * 100) :
    (CleanUp (storeEnv cfg0) fuel w c ch).result = some (Except.ok ()) ∧
      (CleanUp (storeEnv cfg0) fuel w c ch).world.st
        = w.st.afterDelete (scanRecords ch.Key
            ((w.st.selected ⟨site.SiteId, "TXT", UnFqdn ch.ResolvedFQDN, 1, 100⟩).map
              StoreRecord.listed)) := by
  cases hcl : c.esaClient with
  | none => exact absurd hcl hc
  | some cl =>
    have hrun : CleanUp (storeEnv cfg0) fuel w c ch
        = cleanUpRecord (storeEnv cfg0) fuel w c cl ch := by
      simp only [CleanUp, hcfg, hcl]
    obtain ⟨hr, -, hst⟩ := store_cleanUpRecord cfg0 fuel w c cl ch site hsite hlen hfuel
      hrecs hfuel2
    rw [hrun]
    exact ⟨hr, hst⟩

theorem freshIds_withTxtRecord (s : Store) (siteId : Int) (name value : String)
    (h : s.freshIds) : (s.withTxtRecord siteId name value).freshIds := by
  obtain ⟨hn, hlt⟩ := h
  unfold Store.freshIds Store.withTxtRecord
  constructor
  · simp only [List.map_append, List.map_cons, List.map_nil]
    rw [List.nodup_append]
    refine ⟨hn, by simp, ?_⟩
    intro a ha hb
    simp only [List.mem_singleton] at hb
    obtain ⟨r, hr, rfl⟩ := List.mem_map.mp ha
    have := hlt r hr
    omega
  · intro r hr
    simp only [List.mem_append, List.mem_singleton] at hr
    rcases hr with hr | rfl
    · have := hlt r hr
      simp only []
      omega
    · simp only []
      omega

/-! ## The claims -/

/-- C1. Whatever the provider answers and however long the run, `deleteTxtRecord`
issues at most one delete-record call; a delete it issues carries the record ID
of the first listed record (pages in order, records in page order) whose value
equals the target, so never that of a record with another value; and whenever
the listed records have a first record with the target value, the one delete
issued is for that record (in particular when two records share the name and
only one has the target value). -/
theorem deleteTxtRecord_deletes_first_match {σ : Type} (env : Env σ) (fuel : Nat)
    (w : World σ) (cl : Client) (siteId : Int) (recordName value : String) :
    let es := issued w (deleteTxtRecord env fuel w cl siteId recordName value).2
    (deleteCalls es).length ≤ 1 ∧
      (∀ d ∈ deleteCalls es, ∃ pre r post, recordsListed es = pre ++ r :: post ∧
        (∀ x ∈ pre, ¬ x.hasValue value) ∧ r.hasValue value ∧
          d = { RecordId := r.RecordId }) ∧
      (∀ pre r post, recordsListed es = pre ++ r :: post →
        (∀ x ∈ pre, ¬ x.hasValue value) → r.hasValue value →
          deleteCalls es = [{ RecordId := r.RecordId }]) := by
  intro es
  have hdel := (deleteTxtRecord_run env fuel w cl siteId recordName value).2.deletes
  change deleteCalls es = _ at hdel
  refine ⟨?_, ?_, ?_⟩
  · rw [hdel]
    cases scanRecords value (recordsListed es) <;> simp
  · intro d hd
    rw [hdel] at hd
    cases hs : scanRecords value (recordsListed es) with
    | none => simp [hs] at hd
    | some r =>
      simp only [hs, List.mem_singleton] at hd
      obtain ⟨pre, post, he, hpre, hr⟩ := scanRecords_some value _ r hs
      exact ⟨pre, r, post, he, hpre, hr, hd⟩
  · intro pre r post he hpre hr
    rw [hdel, he, scanRecords_first value pre post r hpre hr]

/-- The scenario of two records under one name: the page lists a record with
value `key2` and then one with value `key1`; clean-up for `key1` issues the one
delete for the second record, and clean-up for `key3` issues none. -/
theorem deleteTxtRecord_two_records :
    deleteCalls (issued ⟨(), []⟩
        (deleteTxtRecord (replyEnv noSites twoRecordsPage none) 3 ⟨(), []⟩ sampleClient 42
          "_acme-challenge.example.com" "key1").2) = [{ RecordId := some 12 }] ∧
      deleteCalls (issued ⟨(), []⟩
        (deleteTxtRecord (replyEnv noSites twoRecordsPage none) 3 ⟨(), []⟩ sampleClient 42
          "_acme-challenge.example.com" "key3").2) = [] := by
  decide

/-- C2. A run of `deleteTxtRecord` that returns, returns an error exactly when a
list-records call or the delete-record call it made failed; and when no list
call failed and no listed record has the target value, it returns success and
has issued no delete call. -/
theorem deleteTxtRecord_error_iff {σ : Type} (env : Env σ) (fuel : Nat)
    (w : World σ) (cl : Client) (siteId : Int) (recordName value : String)
    (res : Except Err Unit)
    (hret : (deleteTxtRecord env fuel w cl siteId recordName value).1 = some res) :
    let es := issued w (deleteTxtRecord env fuel w cl siteId recordName value).2
    ((∃ e, res = Except.error e) ↔ ∃ ev ∈ es, ev.recordCallFailed = true) ∧
      ((∀ ev ∈ es, ev.listFailed = false) → (∀ r ∈ recordsListed es, ¬ r.hasValue value) →
        res = Except.ok () ∧ deleteCalls es = []) := by
  intro es
  have hrun := (deleteTxtRecord_run env fuel w cl siteId recordName value).2
  rw [hret] at hrun
  change DeleteRun cl value es (some res) at hrun
  have hfail := hrun.failure
  have hdel := hrun.deletes
  have hiff : (∃ e, res = Except.error e) ↔ ∃ ev ∈ es, ev.recordCallFailed = true := by
    constructor
    · rintro ⟨e, rfl⟩
      exact hfail.1 e rfl
    · rintro ⟨ev, hev, hf⟩
      cases res with
      | error e => exact ⟨e, rfl⟩
      | ok u =>
        have := hfail.2 rfl ev hev
        rw [hf] at this
        exact absurd this (by simp)
  refine ⟨hiff, ?_⟩
  intro hlist hnone
  have hscan : scanRecords value (recordsListed es) = none :=
    (scanRecords_none value _).mpr hnone
  rw [hscan] at hdel
  refine ⟨?_, hdel⟩
  cases res with
  | ok u => rfl
  | error e =>
    obtain ⟨ev, hev, hf⟩ := hfail.1 e rfl
    rcases deleteCalls_of_failed es ev hev hf with h | h
    · rw [hlist ev hev] at h
      exact absurd h (by simp)
    · exact absurd hdel h

/-- C2, at a concrete run: a page of two records, neither with the value
`key3`, and no pagination counters; the run returns success without a delete. -/
theorem deleteTxtRecord_error_iff_witness :
    (deleteTxtRecord (replyEnv noSites twoRecordsPage none) 3 ⟨(), []⟩ sampleClient 42
        "_acme-challenge.example.com" "key3").1 = some (Except.ok ()) ∧
      deleteCalls (issued ⟨(), []⟩
        (deleteTxtRecord (replyEnv noSites twoRecordsPage none) 3 ⟨(), []⟩ sampleClient 42
          "_acme-challenge.example.com" "key3").2) = [] :=
  ⟨by decide,
    ((deleteTxtRecord_error_iff (replyEnv noSites twoRecordsPage none) 3 ⟨(), []⟩ sampleClient 42
      "_acme-challenge.example.com" "key3" (Except.ok ()) (by decide)).2
        (by decide) (by decide)).2⟩

/-- C4, as the claim states it, fails: the listed page contains a site whose
name equals the zone without its trailing dot, yet `getSiteId` returns no ID
but the site-not-found error, because that site carries no ID. -/
theorem getSiteId_skips_site_without_id :
    (∃ s ∈ sitesListed (issued ⟨(), []⟩
        (getSiteId (replyEnv siteWithoutId twoRecordsPage none) 3 ⟨(), []⟩ sampleClient
          "example.com.").2), s.SiteName = some (UnFqdn "example.com.")) ∧
      (getSiteId (replyEnv siteWithoutId twoRecordsPage none) 3 ⟨(), []⟩ sampleClient
        "example.com.").1 = some (Except.error (Err.siteNotFound "example.com.")) := by
  decide

/-- C4, amended. Whatever the provider answers: if the listed pages contain a
site whose name equals the zone without its trailing dot and which carries an
ID, `getSiteId` returns the ID of the first such site in enumeration order;
if they contain no such site, no list call failed and the enumeration has
ended, it fails with the site-not-found error. -/
theorem getSiteId_first_site_with_id {σ : Type} (env : Env σ) (fuel : Nat) (w : World σ)
    (cl : Client) (domain : String) :
    let run := getSiteId env fuel w cl domain
    let es := issued w run.2
    (∀ pre s post id, sitesListed es = pre ++ s :: post →
      (∀ x ∈ pre, ¬ x.resolves (UnFqdn domain)) → s.SiteName = some (UnFqdn domain) →
        s.SiteId = some id → run.1 = some (Except.ok id)) ∧
      ((∀ s ∈ sitesListed es, ¬ s.resolves (UnFqdn domain)) →
        (∀ e ∈ es, e.listFailed = false) → enumerationEnded es →
          run.1 = some (Except.error (Err.siteNotFound domain))) := by
  intro run es
  have hres := (getSiteId_run env fuel w cl domain).2.result
  refine ⟨?_, ?_⟩
  · intro pre s post id he hpre hn hid
    apply hres.1 id
    change scanSites (UnFqdn domain) (sitesListed es) = some id
    rw [he]
    exact scanSites_first _ pre post s id hpre hn hid
  · intro hnone hok hend
    exact hres.2 ((scanSites_none _ _).mpr hnone) hok hend

/-- C4, amended, at concrete runs: the store lists `example.org` and then
`example.com`; the zone `example.com.` resolves to the ID of the latter, and
the zone `example.net.`, which no listed site is named after, gives the
site-not-found error. -/
theorem getSiteId_first_site_with_id_witness :
    (getSiteId (storeEnv sampleDecode) 3 ⟨sampleStore, []⟩ sampleClient "example.com.").1
        = some (Except.ok 42) ∧
      (getSiteId (storeEnv sampleDecode) 3 ⟨sampleStore, []⟩ sampleClient "example.net.").1
        = some (Except.error (Err.siteNotFound "example.net.")) :=
  ⟨(getSiteId_first_site_with_id (storeEnv sampleDecode) 3 ⟨sampleStore, []⟩ sampleClient
      "example.com.").1 [⟨some 7, some "example.org"⟩] ⟨some 42, some "example.com"⟩ [] 42
      (by decide) (by decide) (by decide) (by decide),
    (getSiteId_first_site_with_id (storeEnv sampleDecode) 3 ⟨sampleStore, []⟩ sampleClient
      "example.net.").2 (by decide) (by decide) (by decide)⟩

/-- C6, as the claim states it, fails: a provider that reports a total count of
0 (no site at all) is asked for one page, while `ceil(0 / 100)` is 0. -/
theorem getSiteId_requests_a_page_of_nothing :
    (listSitesCalls (issued ⟨(), []⟩
        (getSiteId (replyEnv noSites twoRecordsPage none) 3 ⟨(), []⟩ sampleClient
          "example.com.").2)).length = 1 ∧
      ceilDiv 0 100 = 0 := by
  decide

/-- C6, amended. In every run of `getSiteId`, each list-sites call but the last
was answered by a successful page with all three counters for which
`pageNumber * pageSize < totalCount` in `int32` arithmetic, so paging stops at
the first answer that omits a counter or has `pageNumber * pageSize >=
totalCount`.  Against a provider that answers every request successfully with
the requested page number, a fixed positive page size `ps` and a fixed total
count `tc` for which `ceil(tc / ps) * ps` is within the `int32` range,
`getSiteId` requests at most `max 1 (ceil(tc / ps))` pages and, given that much
fuel, returns. -/
theorem getSiteId_paging {σ : Type} (env : Env σ) (fuel : Nat) (w : World σ)
    (cl : Client) (domain : String) :
    let run := getSiteId env fuel w cl domain
    let es := issued w run.2
    (∀ e ∈ es.dropLast, e.pageGoesOn = true) ∧
      (∀ ps tc : Int, 0 < ps → ps ≤ 2147483647 → ceilDiv tc ps * ps ≤ 2147483647 →
        (∀ s c req, ∃ sites, (env.listSites s c req).1
          = Except.ok ⟨sites, some req.PageNumber, some ps, some tc⟩) →
        ((listSitesCalls es).length : Int) ≤ max 1 (ceilDiv tc ps) ∧
          (max 1 (ceilDiv tc ps) ≤ (fuel : Int) → run.1 ≠ none)) := by
  intro run es
  refine ⟨(getSiteId_run env fuel w cl domain).2.goesOn, ?_⟩
  intro ps tc hps hps32 hfit hecho
  obtain ⟨es2, hlog, hlen, hterm⟩ := getSiteIdLoop_bounded env cl domain ps tc hps hps32 hfit
    hecho fuel w { PageNumber := 1, PageSize := 100 } (le_refl _) (le_max_left _ _)
  have he : es = es2 := issued_of_log_eq _ _ _ hlog
  rw [he]
  simp only [] at hlen hterm
  refine ⟨by omega, fun hf => hterm (by omega)⟩

/-- C6, amended, at a concrete run: 250 sites in pages of 100 are enumerated in
at most 3 requests, and with fuel 3 the run returns. -/
theorem getSiteId_paging_witness :
    ((listSitesCalls (issued ⟨(), []⟩
        (getSiteId (replyEnv threePages twoRecordsPage none) 3 ⟨(), []⟩ sampleClient
          "example.com.").2)).length : Int) ≤ max 1 (ceilDiv 250 100) ∧
      (max 1 (ceilDiv 250 100) ≤ ((3 : Nat) : Int) →
        (getSiteId (replyEnv threePages twoRecordsPage none) 3 ⟨(), []⟩ sampleClient
          "example.com.").1 ≠ none) :=
  (getSiteId_paging (replyEnv threePages twoRecordsPage none) 3 ⟨(), []⟩ sampleClient
    "example.com.").2 100 250 (by decide) (by decide) (by decide) (fun _ _ _ => ⟨[], rfl⟩)

/-- The product `pageNumber * pageSize` wraps around: with page size `2^30` and
total count `2^31 - 1` (two pages) the loop is still paging after six. -/
theorem getSiteId_wraps_around :
    (listSitesCalls (issued ⟨(), []⟩
        (getSiteId (replyEnv hugePages twoRecordsPage none) 6 ⟨(), []⟩ sampleClient
          "example.com.").2)).length = 6 ∧
      (getSiteId (replyEnv hugePages twoRecordsPage none) 6 ⟨(), []⟩ sampleClient
        "example.com.").1 = none ∧
      ceilDiv 2147483647 1073741824 = 2 := by
  decide

/-- C7. `loadSecretData` returns bytes exactly when the store hands out the
secret object and its data has an entry under the key, and then it returns that
entry; when the store fails to hand out the object, the result is the store's
error wrapped with `namespace/name`; when the object has no entry under the
key, the result is the missing-key error; an error result carries no data. The
store is asked exactly once. -/
theorem loadSecretData_spec {σ : Type} (env : Env σ) (w : World σ)
    (selector : SecretKeySelector) (ns : String) :
    let run := loadSecretData env w selector ns
    let got := (env.secretsGet w.st ns selector.Name).1
    (∀ data, run.1 = Except.ok data ↔
      ∃ secret, got = Except.ok secret ∧ secret.Data.lookup selector.Key = some data) ∧
      (∀ err, got = Except.error err →
        run.1 = Except.error (Err.loadSecret (ns ++ "/" ++ selector.Name) (Err.ext err))) ∧
      (∀ secret, got = Except.ok secret → secret.Data.lookup selector.Key = none →
        run.1 = Except.error (Err.noKey selector.Key (ns ++ "/" ++ selector.Name))) ∧
      issued w run.2 = [Event.secretsGet ns selector.Name got] := by
  intro run got
  refine ⟨?_, ?_, ?_, issued_of_log_eq _ _ _ (loadSecretData_log env w selector ns)⟩
  · intro data
    show (loadSecretData env w selector ns).1 = _ ↔
      ∃ secret, (env.secretsGet w.st ns selector.Name).1 = _ ∧ _
    simp only [loadSecretData, callSecretsGet]
    cases (env.secretsGet w.st ns selector.Name).1 with
    | error err => simp
    | ok secret =>
      simp only []
      cases hl : secret.Data.lookup selector.Key with
      | none => simp [hl]
      | some d => simp [hl]
  · intro err herr
    show (loadSecretData env w selector ns).1 = _
    have herr2 : (env.secretsGet w.st ns selector.Name).1 = Except.error err := herr
    simp only [loadSecretData, callSecretsGet, herr2]
  · intro secret hok hnone
    show (loadSecretData env w selector ns).1 = _
    have hok2 : (env.secretsGet w.st ns selector.Name).1 = Except.ok secret := hok
    simp only [loadSecretData, callSecretsGet, hok2, hnone]

/-- C7, at concrete inputs: the sample store hands out the bytes under `id`; a
secret that is not there gives the wrapped store error, and a key that is not
in the secret gives the missing-key error. -/
theorem loadSecretData_spec_witness :
    (loadSecretData (storeEnv sampleDecode) ⟨sampleStore, []⟩ ⟨"esa-credentials", "id"⟩
        "cert-manager").1 = Except.ok [65] ∧
      (loadSecretData (storeEnv sampleDecode) ⟨sampleStore, []⟩ ⟨"missing", "id"⟩
        "cert-manager").1
        = Except.error (Err.loadSecret ("cert-manager" ++ "/" ++ "missing") (Err.ext "not found")) ∧
      (loadSecretData (storeEnv sampleDecode) ⟨sampleStore, []⟩ ⟨"esa-credentials", "token"⟩
        "cert-manager").1
        = Except.error (Err.noKey "token" ("cert-manager" ++ "/" ++ "esa-credentials")) :=
  ⟨((loadSecretData_spec (storeEnv sampleDecode) ⟨sampleStore, []⟩ ⟨"esa-credentials", "id"⟩
      "cert-manager").1 [65]).mpr ⟨⟨[("id", [65]), ("secret", [66])]⟩, by decide, by decide⟩,
    (loadSecretData_spec (storeEnv sampleDecode) ⟨sampleStore, []⟩ ⟨"missing", "id"⟩
      "cert-manager").2.1 "not found" (by decide),
    (loadSecretData_spec (storeEnv sampleDecode) ⟨sampleStore, []⟩ ⟨"esa-credentials", "token"⟩
      "cert-manager").2.2.1 ⟨[("id", [65]), ("secret", [66])]⟩ (by decide) (by decide)⟩

/-- C8, as the claim states it, fails: a configuration that is present with
empty raw bytes is handed to the JSON decoder, and `loadConfig` returns the
decoding error. -/
theorem loadConfig_empty_raw_is_an_error :
    (loadConfig (storeEnv sampleDecode) (some ⟨[]⟩)).2
      = some (Err.wrap "error decoding solver config" (Err.ext "unexpected end of JSON input")) := by
  decide

/-- C8, amended. For an absent (`nil`) configuration `loadConfig` returns the
zero-valued provider config and no error; a configuration that is present
goes through the JSON decoder, and with empty raw bytes the result is the
zero-valued config together with the decoding error. -/
theorem loadConfig_absent {σ : Type} (env : Env σ) :
    loadConfig env none = (zeroConfig, none) ∧
      zeroConfig.AccessKeyId = ⟨"", ""⟩ ∧ zeroConfig.AccessKeySecret = ⟨"", ""⟩ ∧
      zeroConfig.RegionId = "" ∧
      loadConfig env (some ⟨[]⟩) = (zeroConfig,
        some (Err.wrap "error decoding solver config" (Err.ext "unexpected end of JSON input"))) := by
  refine ⟨rfl, rfl, rfl, rfl, ?_⟩
  simp [loadConfig, jsonUnmarshal]

/-- C9, evaluated on the code: for the same configuration (region
`cn-hangzhou`) `Present` builds its client with the endpoint templated from the
region, while `CleanUp` on a solver without a client builds it with the fixed
endpoint `esa.ap-southeast-1.aliyuncs.com`. -/
theorem CleanUp_endpoint_is_fixed :
    (clientsBuilt (issued ⟨sampleStore, []⟩
        (Present (storeEnv sampleDecode) 3 ⟨sampleStore, []⟩ ⟨none⟩ sampleChallenge).world)).map
        (fun o => (o.RegionId, o.Endpoint)) = [("cn-hangzhou", "esa.cn-hangzhou.aliyuncs.com")] ∧
      (clientsBuilt (issued ⟨sampleStore, []⟩
        (CleanUp (storeEnv sampleDecode) 3 ⟨sampleStore, []⟩ ⟨none⟩ sampleChallenge).world)).map
        (fun o => (o.RegionId, o.Endpoint)) = [("cn-hangzhou", "esa.ap-southeast-1.aliyuncs.com")] ∧
      "esa." ++ sampleConfig.RegionId ++ ".aliyuncs.com" ≠ "esa.ap-southeast-1.aliyuncs.com" := by
  decide

/-- C3. When config decoding, the construction of the client (both secret
lookups, credential and client) and site resolution succeed, `Present` issues
exactly one create-record call: it goes to the provider through the client
just built, in the state site resolution left, with the resolved site ID, type
`TXT`, the resolved FQDN without its trailing dot as record name, the key as
value and TTL 300; the provider's state after `Present` is the one that call
leaves; `Present` returns, and it returns success exactly when the provider
answers that call without an error. -/
theorem Present_creates_record {σ : Type} (env : Env σ) (fuel : Nat) (w : World σ)
    (c : alicloudESAProviderSolver) (ch : ChallengeRequest) (cfg : alicloudESAProviderConfig)
    (cl : Client) (siteId : Int)
    (hcfg : loadConfig env ch.Config = (cfg, none))
    (hbuild : (buildClient env w c cfg ch.ResourceNamespace
      ("esa." ++ cfg.RegionId ++ ".aliyuncs.com")).1 = Except.ok cl)
    (hsite : (getSiteId env fuel (buildClient env w c cfg ch.ResourceNamespace
      ("esa." ++ cfg.RegionId ++ ".aliyuncs.com")).2.2 cl ch.ResolvedZone).1
        = some (Except.ok siteId)) :
    let request : CreateRecordRequest :=
      { SiteId := siteId, Typ := "TXT", RecordName := UnFqdn ch.ResolvedFQDN,
        Data := ⟨ch.Key⟩, Ttl := 300 }
    let run := Present env fuel w c ch
    let resolved := getSiteId env fuel (buildClient env w c cfg ch.ResourceNamespace
      ("esa." ++ cfg.RegionId ++ ".aliyuncs.com")).2.2 cl ch.ResolvedZone
    let answer := env.createRecord resolved.2.st cl request
    createCalls (issued w run.world) = [(cl, request, answer.1)] ∧
      run.world.st = answer.2 ∧
      (run.result = some (Except.ok ()) ↔ answer.1 = none) ∧ run.result ≠ none := by
  intro request run resolved answer
  obtain ⟨esB, hB, hBsetup, -⟩ := buildClient_log env w c cfg ch.ResourceNamespace
    ("esa." ++ cfg.RegionId ++ ".aliyuncs.com")
  obtain ⟨hS, hSrun⟩ := getSiteId_run env fuel (buildClient env w c cfg ch.ResourceNamespace
    ("esa." ++ cfg.RegionId ++ ".aliyuncs.com")).2.2 cl ch.ResolvedZone
  have hcreate : ∀ err : Option String, createCalls (esB ++ (issued (buildClient env w c cfg
      ch.ResourceNamespace ("esa." ++ cfg.RegionId ++ ".aliyuncs.com")).2.2 resolved.2
      ++ [Event.createRecord cl request err])) = [(cl, request, err)] := by
    intro err
    rw [createCalls_append, createCalls_append, createCalls_of_setup esB hBsetup,
      hSrun.remoteOnly.1]
    rfl
  have hlog : ∀ err : Option String, ∀ st : σ,
      issued w ⟨st, resolved.2.log ++ [Event.createRecord cl request err]⟩
      = esB ++ (issued (buildClient env w c cfg
          ch.ResourceNamespace ("esa." ++ cfg.RegionId ++ ".aliyuncs.com")).2.2 resolved.2
        ++ [Event.createRecord cl request err]) := by
    intro err st
    apply issued_of_log_eq
    show resolved.2.log ++ _ = _
    rw [hS, hB]
    simp
  have key : ∀ a : Option String × σ,
      env.createRecord (getSiteId env fuel (buildClient env w c cfg ch.ResourceNamespace
        ("esa." ++ cfg.RegionId ++ ".aliyuncs.com")).2.2 cl ch.ResolvedZone).2.st cl
        ⟨siteId, "TXT", UnFqdn ch.ResolvedFQDN, ⟨ch.Key⟩, 300⟩ = a →
      (Present env fuel w c ch).world
          = ⟨a.2, (getSiteId env fuel (buildClient env w c cfg ch.ResourceNamespace
              ("esa." ++ cfg.RegionId ++ ".aliyuncs.com")).2.2 cl ch.ResolvedZone).2.log
            ++ [Event.createRecord cl ⟨siteId, "TXT", UnFqdn ch.ResolvedFQDN, ⟨ch.Key⟩, 300⟩
              a.1]⟩ ∧
        ((Present env fuel w c ch).result = some (Except.ok ()) ↔ a.1 = none) ∧
        (Present env fuel w c ch).result ≠ none := by
    intro a ha
    simp only [Present, presentRecord, hcfg, hbuild, hsite, createTxtRecord, callCreateRecord,
      extractRecordName, ha]
    rcases a with ⟨_ | e, st⟩ <;> simp
  have hworld : run.world
        = ⟨answer.2, resolved.2.log ++ [Event.createRecord cl request answer.1]⟩ ∧
      (run.result = some (Except.ok ()) ↔ answer.1 = none) ∧ run.result ≠ none :=
    key answer rfl
  obtain ⟨hw, hres, hret⟩ := hworld
  refine ⟨?_, ?_, hres, hret⟩
  · rw [hw, hlog, hcreate]
  · rw [hw]

/-- C3, at the scenario of the specification: zone `example.com.`, FQDN
`_acme-challenge.example.com.`, key `abc123`, on a store where the site
`example.com` has ID 42 and that holds no record.  The one create call goes
through the client built from the stored credentials, is answered without an
error and leaves the record in the store; `Present` succeeds. -/
theorem Present_creates_record_witness :
    createCalls (issued ⟨sampleStore, []⟩
        (Present (storeEnv sampleDecode) 3 ⟨sampleStore, []⟩ ⟨none⟩ sampleChallenge).world)
        = [(sampleClient,
            { SiteId := 42, Typ := "TXT", RecordName := "_acme-challenge.example.com",
              Data := ⟨"abc123"⟩, Ttl := 300 }, none)] ∧
      (Present (storeEnv sampleDecode) 3 ⟨sampleStore, []⟩ ⟨none⟩ sampleChallenge).world.st.records
        = [⟨1, 42, "TXT", "_acme-challenge.example.com", "abc123", 300⟩] ∧
      (Present (storeEnv sampleDecode) 3 ⟨sampleStore, []⟩ ⟨none⟩ sampleChallenge).result
        = some (Except.ok ()) := by
  have h := Present_creates_record (storeEnv sampleDecode) 3 ⟨sampleStore, []⟩ ⟨none⟩
    sampleChallenge sampleConfig sampleClient 42 (by decide) (by decide) (by decide)
  refine ⟨?_, ?_, ?_⟩
  · rw [h.1]; decide
  · rw [h.2.1]; decide
  · exact h.2.2.1.mpr (by decide)

/-- C10, as the claim states it, fails: the config decodes, but the store does
not hold the secret it refers to; `Present` on a solver that holds a client
builds no client and leaves the old one in place, and `CleanUp` on a solver
without a client makes one secret lookup, not two, and stores no client. -/
theorem Present_without_secret_keeps_old_client :
    loadConfig (storeEnv sampleDecode) sampleChallenge.Config = (sampleConfig, none) ∧
      (Present (storeEnv sampleDecode) 3 ⟨{ sampleStore with secrets := [] }, []⟩
        ⟨some ⟨⟨⟨"access_key", [1], [2]⟩, "eu", "esa.eu.aliyuncs.com"⟩⟩⟩ sampleChallenge).solver
        = ⟨some ⟨⟨⟨"access_key", [1], [2]⟩, "eu", "esa.eu.aliyuncs.com"⟩⟩⟩ ∧
      clientsBuilt (issued ⟨{ sampleStore with secrets := [] }, []⟩
        (Present (storeEnv sampleDecode) 3 ⟨{ sampleStore with secrets := [] }, []⟩
          ⟨some ⟨⟨⟨"access_key", [1], [2]⟩, "eu", "esa.eu.aliyuncs.com"⟩⟩⟩
          sampleChallenge).world) = [] ∧
      (CleanUp (storeEnv sampleDecode) 3 ⟨{ sampleStore with secrets := [] }, []⟩ ⟨none⟩
        sampleChallenge).solver = ⟨none⟩ ∧
      secretLookups (issued ⟨{ sampleStore with secrets := [] }, []⟩
        (CleanUp (storeEnv sampleDecode) 3 ⟨{ sampleStore with secrets := [] }, []⟩ ⟨none⟩
          sampleChallenge).world) = [("cert-manager", "esa-credentials")] := by
  decide

/-- C10, amended. For a request with a decodable config: `CleanUp` on a solver
that holds a client makes no secret lookup, builds no client, leaves the
solver unchanged and sends every remote call through the client it holds;
when both secret lookups succeed and the credential is accepted, `CleanUp`
on a solver without a client makes exactly the two secret lookups, builds
exactly one client, from the resolved credentials and the configured region,
and stores it, and `Present` does the same whatever client the solver held;
and when the first secret lookup fails, or the second one, or the credential
is rejected, `Present`, and `CleanUp` on a solver without a client, return an
error, build no client and leave the solver as it was. -/
theorem client_handle_lifecycle {σ : Type} (env : Env σ) (fuel : Nat) (w : World σ)
    (c : alicloudESAProviderSolver) (ch : ChallengeRequest) (cfg : alicloudESAProviderConfig)
    (hcfg : loadConfig env ch.Config = (cfg, none)) :
    (∀ cl, c.esaClient = some cl →
      (CleanUp env fuel w c ch).solver = c ∧
        secretLookups (issued w (CleanUp env fuel w c ch).world) = [] ∧
        clientsBuilt (issued w (CleanUp env fuel w c ch).world) = [] ∧
        ∀ e ∈ issued w (CleanUp env fuel w c ch).world, e.client = some cl) ∧
      (∀ id sec,
        (loadSecretData env w cfg.AccessKeyId ch.ResourceNamespace).1 = Except.ok id →
        (loadSecretData env (loadSecretData env w cfg.AccessKeyId ch.ResourceNamespace).2
          cfg.AccessKeySecret ch.ResourceNamespace).1 = Except.ok sec →
        env.newCredential ⟨"access_key", id, sec⟩ = none →
        (c.esaClient = none → ∃ endpoint,
          (CleanUp env fuel w c ch).solver
              = ⟨some ⟨⟨⟨"access_key", id, sec⟩, cfg.RegionId, endpoint⟩⟩⟩ ∧
            secretLookups (issued w (CleanUp env fuel w c ch).world)
              = [(ch.ResourceNamespace, cfg.AccessKeyId.Name),
                 (ch.ResourceNamespace, cfg.AccessKeySecret.Name)] ∧
            clientsBuilt (issued w (CleanUp env fuel w c ch).world)
              = [⟨⟨"access_key", id, sec⟩, cfg.RegionId, endpoint⟩]) ∧
        (∃ endpoint,
          (Present env fuel w c ch).solver
              = ⟨some ⟨⟨⟨"access_key", id, sec⟩, cfg.RegionId, endpoint⟩⟩⟩ ∧
            secretLookups (issued w (Present env fuel w c ch).world)
              = [(ch.ResourceNamespace, cfg.AccessKeyId.Name),
                 (ch.ResourceNamespace, cfg.AccessKeySecret.Name)] ∧
            clientsBuilt (issued w (Present env fuel w c ch).world)
              = [⟨⟨"access_key", id, sec⟩, cfg.RegionId, endpoint⟩])) ∧
      (((∃ e, (loadSecretData env w cfg.AccessKeyId ch.ResourceNamespace).1 = Except.error e) ∨
        (∃ id e, (loadSecretData env w cfg.AccessKeyId ch.ResourceNamespace).1 = Except.ok id ∧
          (loadSecretData env (loadSecretData env w cfg.AccessKeyId ch.ResourceNamespace).2
            cfg.AccessKeySecret ch.ResourceNamespace).1 = Except.error e) ∨
        (∃ id sec err,
          (loadSecretData env w cfg.AccessKeyId ch.ResourceNamespace).1 = Except.ok id ∧
          (loadSecretData env (loadSecretData env w cfg.AccessKeyId ch.ResourceNamespace).2
            cfg.AccessKeySecret ch.ResourceNamespace).1 = Except.ok sec ∧
          env.newCredential ⟨"access_key", id, sec⟩ = some err)) →
        (c.esaClient = none → failedWithoutClient w c (CleanUp env fuel w c ch)) ∧
          failedWithoutClient w c (Present env fuel w c ch)) := by
  refine ⟨?_, ?_, ?_⟩
  · intro cl hcl
    have hrun : CleanUp env fuel w c ch = cleanUpRecord env fuel w c cl ch := by
      simp only [CleanUp, hcfg, hcl]
    rw [hrun]
    obtain ⟨hsolver, es, hlog, hcl2⟩ := cleanUpRecord_log env fuel w c cl ch
    rw [issued_of_log_eq _ _ _ hlog]
    have hr := readers_of_remote es (fun e he => by rw [hcl2 e he]; simp)
    exact ⟨hsolver, hr.1, hr.2, hcl2⟩
  · intro id sec h1 h2 h3
    have tail : ∀ (endpoint : String) (run : Ran σ)
        (_ : run = ⟨run.result, (buildClient env w c cfg ch.ResourceNamespace endpoint).2.1,
              (buildClient env w c cfg ch.ResourceNamespace endpoint).2.2⟩ ∨
          ∃ cl, run.solver = (buildClient env w c cfg ch.ResourceNamespace endpoint).2.1 ∧
            ∃ es, run.world.log
                = (buildClient env w c cfg ch.ResourceNamespace endpoint).2.2.log ++ es ∧
              ∀ e ∈ es, e.client = some cl),
        run.solver = ⟨some ⟨⟨⟨"access_key", id, sec⟩, cfg.RegionId, endpoint⟩⟩⟩ ∧
          secretLookups (issued w run.world)
            = [(ch.ResourceNamespace, cfg.AccessKeyId.Name),
               (ch.ResourceNamespace, cfg.AccessKeySecret.Name)] ∧
          clientsBuilt (issued w run.world)
            = [⟨⟨"access_key", id, sec⟩, cfg.RegionId, endpoint⟩] := by
      intro endpoint run hrun
      obtain ⟨hsolver, -, esB, hB, hsl, hcb⟩ :=
        buildClient_built env w c cfg ch.ResourceNamespace endpoint id sec h1 h2 h3
      rcases hrun with hrun | ⟨cl, hs, es, hlog, hcl⟩
      · have hw : run.world = (buildClient env w c cfg ch.ResourceNamespace endpoint).2.2 := by
          rw [hrun]
        have hs : run.solver = (buildClient env w c cfg ch.ResourceNamespace endpoint).2.1 := by
          rw [hrun]
        rw [hw, hs, issued_of_log_eq _ _ _ hB]
        exact ⟨hsolver, hsl, hcb⟩
      · have hr := readers_of_remote es (fun e he => by rw [hcl e he]; simp)
        have hfull : run.world.log = w.log ++ (esB ++ es) := by
          rw [hlog, hB, List.append_assoc]
        rw [hs, issued_of_log_eq _ _ _ hfull, secretLookups_append, clientsBuilt_append,
          hr.1, hr.2, hsl, hcb]
        exact ⟨hsolver, rfl, rfl⟩
    refine ⟨fun hnone => ⟨"esa.ap-southeast-1.aliyuncs.com", ?_⟩,
      ⟨"esa." ++ cfg.RegionId ++ ".aliyuncs.com", ?_⟩⟩
    · apply tail
      simp only [CleanUp, hcfg, hnone]
      cases hb : (buildClient env w c cfg ch.ResourceNamespace
          "esa.ap-southeast-1.aliyuncs.com").1 with
      | error e => exact Or.inl rfl
      | ok cl =>
        obtain ⟨hs, es, hlog, hcl⟩ := cleanUpRecord_log env fuel
          (buildClient env w c cfg ch.ResourceNamespace "esa.ap-southeast-1.aliyuncs.com").2.2
          (buildClient env w c cfg ch.ResourceNamespace "esa.ap-southeast-1.aliyuncs.com").2.1
          cl ch
        exact Or.inr ⟨cl, hs, es, hlog, hcl⟩
    · apply tail
      simp only [Present, hcfg]
      cases hb : (buildClient env w c cfg ch.ResourceNamespace
          ("esa." ++ cfg.RegionId ++ ".aliyuncs.com")).1 with
      | error e => exact Or.inl rfl
      | ok cl =>
        obtain ⟨hs, es, hlog, hcl⟩ := presentRecord_log env fuel
          (buildClient env w c cfg ch.ResourceNamespace
            ("esa." ++ cfg.RegionId ++ ".aliyuncs.com")).2.2
          (buildClient env w c cfg ch.ResourceNamespace
            ("esa." ++ cfg.RegionId ++ ".aliyuncs.com")).2.1 cl ch
        exact Or.inr ⟨cl, hs, es, hlog, hcl⟩
  · intro hfail
    refine ⟨fun hnone => ?_, ?_⟩
    · obtain ⟨⟨e, he⟩, hs, hb⟩ := buildClient_failed env w c cfg ch.ResourceNamespace
        "esa.ap-southeast-1.aliyuncs.com" hfail
      have hrun : CleanUp env fuel w c ch
          = ⟨some (Except.error e),
              (buildClient env w c cfg ch.ResourceNamespace
                "esa.ap-southeast-1.aliyuncs.com").2.1,
              (buildClient env w c cfg ch.ResourceNamespace
                "esa.ap-southeast-1.aliyuncs.com").2.2⟩ := by
        simp only [CleanUp, hcfg, hnone, he]
      rw [hrun]
      exact ⟨⟨e, rfl⟩, hb, hs⟩
    · obtain ⟨⟨e, he⟩, hs, hb⟩ := buildClient_failed env w c cfg ch.ResourceNamespace
        ("esa." ++ cfg.RegionId ++ ".aliyuncs.com") hfail
      have hrun : Present env fuel w c ch
          = ⟨some (Except.error e),
              (buildClient env w c cfg ch.ResourceNamespace
                ("esa." ++ cfg.RegionId ++ ".aliyuncs.com")).2.1,
              (buildClient env w c cfg ch.ResourceNamespace
                ("esa." ++ cfg.RegionId ++ ".aliyuncs.com")).2.2⟩ := by
        simp only [Present, hcfg, he]
      rw [hrun]
      exact ⟨⟨e, rfl⟩, hb, hs⟩

/-- C10, amended, at concrete runs: on the sample store `Present` replaces the
client the solver held by one built from the stored credentials; on the same
store without its secret, `Present` returns an error, builds no client and
leaves the solver as it was. -/
theorem client_handle_lifecycle_witness :
    (∃ endpoint,
      (Present (storeEnv sampleDecode) 3 ⟨sampleStore, []⟩
          ⟨some ⟨⟨⟨"access_key", [1], [2]⟩, "eu", "esa.eu.aliyuncs.com"⟩⟩⟩ sampleChallenge).solver
          = ⟨some ⟨⟨⟨"access_key", [65], [66]⟩, sampleConfig.RegionId, endpoint⟩⟩⟩ ∧
        secretLookups (issued ⟨sampleStore, []⟩
          (Present (storeEnv sampleDecode) 3 ⟨sampleStore, []⟩
            ⟨some ⟨⟨⟨"access_key", [1], [2]⟩, "eu", "esa.eu.aliyuncs.com"⟩⟩⟩ sampleChallenge).world)
          = [(sampleChallenge.ResourceNamespace, sampleConfig.AccessKeyId.Name),
             (sampleChallenge.ResourceNamespace, sampleConfig.AccessKeySecret.Name)] ∧
        clientsBuilt (issued ⟨sampleStore, []⟩
          (Present (storeEnv sampleDecode) 3 ⟨sampleStore, []⟩
            ⟨some ⟨⟨⟨"access_key", [1], [2]⟩, "eu", "esa.eu.aliyuncs.com"⟩⟩⟩ sampleChallenge).world)
          = [⟨⟨"access_key", [65], [66]⟩, sampleConfig.RegionId, endpoint⟩]) ∧
      failedWithoutClient ⟨{ sampleStore with secrets := [] }, []⟩
        ⟨some ⟨⟨⟨"access_key", [1], [2]⟩, "eu", "esa.eu.aliyuncs.com"⟩⟩⟩
        (Present (storeEnv sampleDecode) 3 ⟨{ sampleStore with secrets := [] }, []⟩
          ⟨some ⟨⟨⟨"access_key", [1], [2]⟩, "eu", "esa.eu.aliyuncs.com"⟩⟩⟩ sampleChallenge) :=
  ⟨((client_handle_lifecycle (storeEnv sampleDecode) 3 ⟨sampleStore, []⟩
      ⟨some ⟨⟨⟨"access_key", [1], [2]⟩, "eu", "esa.eu.aliyuncs.com"⟩⟩⟩ sampleChallenge
      sampleConfig (by decide)).2.1 [65] [66] (by decide) (by decide) (by decide)).2,
    ((client_handle_lifecycle (storeEnv sampleDecode) 3 ⟨{ sampleStore with secrets := [] }, []⟩
      ⟨some ⟨⟨⟨"access_key", [1], [2]⟩, "eu", "esa.eu.aliyuncs.com"⟩⟩⟩ sampleChallenge
      sampleConfig (by decide)).2.2 (Or.inl ⟨_, rfl⟩)).2⟩

end EsaWebhook
